import Mathlib

/-!
# Address and descriptor registries of `reshade::d3d12::device_impl`

A shallow embedding of the lookup tables kept by `device_impl`
(`source/d3d12/d3d12_impl_device.hpp`, `source/d3d12/render_d3d12.hpp`) and of the
operations that read and write them:

* `resolve_gpu_address`, `register_buffer_gpu_address` over `_buffer_gpu_addresses`;
* `resolve_descriptor_handle`, `register_descriptor_heap`, `unregister_descriptor_heap`
  over `_descriptor_heaps` and `_descriptor_set_map`;
* `register_resource_view` over `_views`;
* `begin_commands` of `command_list_immediate_impl`.

Conventions.  Pointers and 64-bit handles are natural numbers.  `UINT64` subtraction
and `UINT` multiplication wrap explicitly (`% 2^64`, `% 2^32`).  A `std::vector` is a
`List` in insertion order, a `std::unordered_map` is an association list that is only
ever read through `find`.  Undefined behaviour and failed assertions are results of
type `Fault`.  The mutex is not modelled: every operation is one atomic step.
-/

namespace reshade.d3d12

/-! ## Machine integers -/

/-- Number of values of a `UINT64` / `D3D12_GPU_VIRTUAL_ADDRESS` / 64-bit `SIZE_T`. -/
def UINT64_MOD : Nat := 2 ^ 64

/-- Number of values of a `UINT` / `uint32_t`. -/
def UINT32_MOD : Nat := 2 ^ 32

/-- Unsigned 64-bit subtraction `a - b`, wrapping modulo `2^64`. -/
def sub64 (a b : Nat) : Nat := (a + UINT64_MOD - b) % UINT64_MOD

/-- Unsigned 32-bit multiplication `a * b`, wrapping modulo `2^32`. -/
def mul32 (a b : Nat) : Nat := (a * b) % UINT32_MOD

/-! ## Native objects -/

/-- The Direct3D 12 range record `D3D12_GPU_VIRTUAL_ADDRESS_RANGE`. -/
structure D3D12_GPU_VIRTUAL_ADDRESS_RANGE where
  StartAddress : Nat
  SizeInBytes : Nat
  deriving DecidableEq

/-- What the tables read from an `ID3D12Resource *` that is not null: the pointer
value itself and the result of `GetGPUVirtualAddress()`. -/
structure ID3D12Resource where
  ptr : Nat
  GetGPUVirtualAddress : Nat
  deriving DecidableEq

/-- The Direct3D 12 enumeration `D3D12_DESCRIPTOR_HEAP_TYPE`
(`D3D12_DESCRIPTOR_HEAP_TYPE_NUM_TYPES` is 4). -/
inductive D3D12_DESCRIPTOR_HEAP_TYPE where
  | CBV_SRV_UAV
  | SAMPLER
  | RTV
  | DSV
  deriving DecidableEq

/-- What the tables read from an `ID3D12DescriptorHeap *` that is not null: the
pointer value, the fields of `GetDesc()` that are used (`Type`, `NumDescriptors`, and
whether `Flags` has `D3D12_DESCRIPTOR_HEAP_FLAG_SHADER_VISIBLE`), and the `ptr` of the
two heap-start handles. -/
structure ID3D12DescriptorHeap where
  ptr : Nat
  desc_Type : D3D12_DESCRIPTOR_HEAP_TYPE
  desc_NumDescriptors : Nat
  desc_Flags_SHADER_VISIBLE : Bool
  GetCPUDescriptorHandleForHeapStart : Nat
  GetGPUDescriptorHandleForHeapStart : Nat
  deriving DecidableEq

/-- One element of `_buffer_gpu_addresses`:
`std::pair<ID3D12Resource *, D3D12_GPU_VIRTUAL_ADDRESS_RANGE>`; only the pointer value
of the resource is ever read back. -/
abbrev buffer_info := Nat × D3D12_GPU_VIRTUAL_ADDRESS_RANGE

/-- One element of `_descriptor_heaps`:
`std::pair<ID3D12DescriptorHeap *, D3D12_GPU_VIRTUAL_ADDRESS_RANGE>`. -/
abbrev heap_info := ID3D12DescriptorHeap × D3D12_GPU_VIRTUAL_ADDRESS_RANGE

/-- Ways an operation can leave defined behaviour. -/
inductive Fault where
  | assertion_failed
  | division_by_zero
  | iterator_past_end
  deriving DecidableEq

/-! ## `std::unordered_map` with 64-bit keys -/

/-- The member `find`: the mapped value, or `none` for `end()`. -/
def unordered_map_find {β : Type} (m : List (Nat × β)) (key : Nat) : Option β :=
  match m with
  | [] => none
  | (k, v) :: rest => if k = key then some v else unordered_map_find rest key

/-- The member `emplace`: inserts only when no element with the key exists. -/
def unordered_map_emplace {β : Type} (m : List (Nat × β)) (key : Nat) (value : β) :
    List (Nat × β) :=
  match unordered_map_find m key with
  | some _ => m
  | none => (key, value) :: m

/-- The member `erase(key)`. -/
def unordered_map_erase {β : Type} (m : List (Nat × β)) (key : Nat) : List (Nat × β) :=
  m.filter (fun kv => decide (kv.1 ≠ key))

/-! ## The device state -/

/-- The mutable tables of `device_impl` (lines 143-147). The array
`_descriptor_handle_size` is filled once by the constructor and is passed to the
operations as a separate argument. -/
structure device_impl where
  _views : List (Nat × Nat)
  _buffer_gpu_addresses : List buffer_info
  _descriptor_heaps : List heap_info
  _descriptor_set_map : List (Nat × (Nat × Nat))
  deriving DecidableEq

/-- A device with empty tables. -/
def device_impl.empty : device_impl := ⟨[], [], [], []⟩

/-- The three outputs of `resolve_gpu_address`: the returned `bool`, `*out_resource`
and `*out_offset`. -/
structure gpu_address_result where
  found : Bool
  out_resource : Nat
  out_offset : Nat
  deriving DecidableEq

/-- The outputs of `resolve_descriptor_handle`: the returned `bool`, `*out_set`,
`*out_offset`, and the value stored through `shader_visible` (`none` when nothing is
stored). -/
structure descriptor_handle_result where
  found : Bool
  out_set : Nat
  out_offset : Nat
  shader_visible : Option Bool
  deriving DecidableEq

/-! ## `resolve_gpu_address` -/

/-- The `for` loop of `resolve_gpu_address` (lines 93-107): entries are visited in
vector order; an entry above the address is skipped, otherwise the wrapped difference
is compared with the entry's size. The outputs were zeroed before the loop. -/
def resolve_gpu_address_loop (address : Nat) : List buffer_info → gpu_address_result
  | [] => ⟨false, 0, 0⟩
  | info :: rest =>
    if address < info.2.StartAddress then
      resolve_gpu_address_loop address rest
    else
      let address_offset := sub64 address info.2.StartAddress
      if address_offset < info.2.SizeInBytes then
        ⟨true, info.1, address_offset⟩
      else
        resolve_gpu_address_loop address rest

/-- The function `device_impl::resolve_gpu_address` (lines 83-108). -/
def resolve_gpu_address (d : device_impl) (address : Nat) : gpu_address_result :=
  if address = 0 then
    ⟨true, 0, 0⟩
  else
    resolve_gpu_address_loop address d._buffer_gpu_addresses

/-- The function `device_impl::register_buffer_gpu_address` (lines 187-192), for a
resource pointer that is not null: one `emplace_back`. -/
def register_buffer_gpu_address (d : device_impl) (resource : ID3D12Resource)
    (size : Nat) : device_impl :=
  { d with _buffer_gpu_addresses :=
      d._buffer_gpu_addresses ++ [(resource.ptr, ⟨resource.GetGPUVirtualAddress, size⟩)] }

/-! ## `resolve_descriptor_handle` -/

/-- The `for` loop of `resolve_descriptor_handle` (lines 114-133). `NDEBUG` tells
whether `assert` is compiled out. An entry is skipped when its heap has another type
or when `handle.ptr % _descriptor_handle_size[type]` differs from its start address;
the first entry that is not skipped decides the result. -/
def resolve_descriptor_handle_loop (NDEBUG : Bool)
    (_descriptor_handle_size : D3D12_DESCRIPTOR_HEAP_TYPE → Nat)
    (handle : Nat) (type : D3D12_DESCRIPTOR_HEAP_TYPE) :
    List heap_info → Except Fault descriptor_handle_result
  | [] => .ok ⟨false, 0, 0, none⟩
  | info :: rest =>
    if info.1.desc_Type ≠ type then
      resolve_descriptor_handle_loop NDEBUG _descriptor_handle_size handle type rest
    else if _descriptor_handle_size type = 0 then
      .error Fault.division_by_zero
    else if handle % _descriptor_handle_size type ≠ info.2.StartAddress then
      resolve_descriptor_handle_loop NDEBUG _descriptor_handle_size handle type rest
    else
      let address_offset := sub64 handle info.2.StartAddress
      if NDEBUG = false ∧ ¬ address_offset < info.2.SizeInBytes then
        .error Fault.assertion_failed
      else
        .ok ⟨true, info.1.GetGPUDescriptorHandleForHeapStart,
          (address_offset / _descriptor_handle_size info.1.desc_Type) % UINT32_MOD,
          some info.1.desc_Flags_SHADER_VISIBLE⟩

/-- The function `device_impl::resolve_descriptor_handle` (lines 109-134), called with
a non-null `shader_visible`. -/
def resolve_descriptor_handle (NDEBUG : Bool)
    (_descriptor_handle_size : D3D12_DESCRIPTOR_HEAP_TYPE → Nat) (d : device_impl)
    (handle : Nat) (type : D3D12_DESCRIPTOR_HEAP_TYPE) :
    Except Fault descriptor_handle_result :=
  resolve_descriptor_handle_loop NDEBUG _descriptor_handle_size handle type
    d._descriptor_heaps

/-! ## Registration -/

/-- The function `device_impl::register_resource_view` (lines 157-162), for a resource
pointer that is not null: one `emplace` into `_views`. -/
def register_resource_view (d : device_impl) (resource : Nat) (handle : Nat) :
    device_impl :=
  { d with _views := unordered_map_emplace d._views handle resource }

/-- The range that `register_descriptor_heap` records for a heap (line 170): the CPU
heap start and the `UINT` product of capacity and stride. -/
def descriptor_heap_range (_descriptor_handle_size : D3D12_DESCRIPTOR_HEAP_TYPE → Nat)
    (heap : ID3D12DescriptorHeap) : D3D12_GPU_VIRTUAL_ADDRESS_RANGE :=
  ⟨heap.GetCPUDescriptorHandleForHeapStart,
    mul32 heap.desc_NumDescriptors (_descriptor_handle_size heap.desc_Type)⟩

/-- The function `device_impl::register_descriptor_heap` (lines 164-172), for a heap
pointer that is not null. -/
def register_descriptor_heap
    (_descriptor_handle_size : D3D12_DESCRIPTOR_HEAP_TYPE → Nat) (d : device_impl)
    (heap : ID3D12DescriptorHeap) : device_impl :=
  { d with
    _descriptor_heaps :=
      d._descriptor_heaps ++ [(heap, descriptor_heap_range _descriptor_handle_size heap)]
    _descriptor_set_map :=
      unordered_map_emplace d._descriptor_set_map heap.GetGPUDescriptorHandleForHeapStart
        (heap.GetCPUDescriptorHandleForHeapStart, heap.desc_NumDescriptors) }

/-- The `for` loop of `unregister_descriptor_heap` (lines 176-184). The list argument
is the part of the vector from the iterator `it` to `end()`; the result is that part
after the loop. An empty list is `it == end()`. On a match the element is erased and
the loop left. Otherwise the body executes `++it`, and the loop header executes `++it`
once more: when the first of these reaches `end()`, the second increments `end()`. -/
def unregister_descriptor_heap_loop (heap : ID3D12DescriptorHeap) :
    List heap_info → Except Fault (List heap_info)
  | [] => .ok []
  | info :: rest =>
    if info.1.ptr = heap.ptr then
      .ok rest
    else
      match rest with
      | [] => .error Fault.iterator_past_end
      | next :: rest2 =>
        match unregister_descriptor_heap_loop heap rest2 with
        | .ok t => .ok (info :: next :: t)
        | .error f => .error f

/-- The function `device_impl::unregister_descriptor_heap` (lines 173-186). -/
def unregister_descriptor_heap (d : device_impl) (heap : ID3D12DescriptorHeap) :
    Except Fault device_impl :=
  match unregister_descriptor_heap_loop heap d._descriptor_heaps with
  | .ok t =>
    .ok { d with
      _descriptor_heaps := t
      _descriptor_set_map :=
        unordered_map_erase d._descriptor_set_map heap.GetGPUDescriptorHandleForHeapStart }
  | .error f => .error f

/-! ## The immediate command list -/

/-- The constant `command_list_immediate_impl::NUM_COMMAND_FRAMES`. -/
def NUM_COMMAND_FRAMES : Nat := 4

/-- The state of a `command_list_immediate_impl` (`render_d3d12.hpp`, lines 104-123)
with the members it inherits: `_orig`, the wrapped `ID3D12GraphicsCommandList *` that
the base `api_object_impl` holds, and `_has_commands` of `command_list_impl`. The
arrays have `NUM_COMMAND_FRAMES` elements; COM pointers are their pointer values. -/
structure command_list_immediate_impl where
  _orig : Nat
  _has_commands : Bool
  _cmd_index : Nat
  _fence_event : Nat
  _fence_value : List Nat
  _fence : List Nat
  _cmd_alloc : List Nat
  deriving DecidableEq

/-- The function `command_list_immediate_impl::begin_commands` (line 115):
`_has_commands = true; return _orig;`. The result is the state after the call and the
returned pointer. -/
def begin_commands (l : command_list_immediate_impl) :
    command_list_immediate_impl × Nat :=
  ({ l with _has_commands := true }, l._orig)

/-! ## Sequences of heap registrations -/

/-- One call of `register_descriptor_heap` or of `unregister_descriptor_heap`. -/
inductive heap_call where
  | register (heap : ID3D12DescriptorHeap)
  | unregister (heap : ID3D12DescriptorHeap)
  deriving DecidableEq

/-- The heap a call is made for. -/
def heap_call.heap : heap_call → ID3D12DescriptorHeap
  | .register heap => heap
  | .unregister heap => heap

/-- The calls of a sequence executed one after the other; a fault ends the run. -/
def run_heap_calls (_descriptor_handle_size : D3D12_DESCRIPTOR_HEAP_TYPE → Nat) :
    device_impl → List heap_call → Except Fault device_impl
  | d, [] => .ok d
  | d, .register heap :: rest =>
    run_heap_calls _descriptor_handle_size
      (register_descriptor_heap _descriptor_handle_size d heap) rest
  | d, .unregister heap :: rest =>
    match unregister_descriptor_heap d heap with
    | .ok d' => run_heap_calls _descriptor_handle_size d' rest
    | .error f => .error f

/-! ## Specification vocabulary for buffer ranges -/


/-- The address lies in the entry's interval `[base, base + size)`, the sum being
exact. -/
def covers (info : buffer_info) (address : Nat) : Prop :=
  info.2.StartAddress ≤ address ∧ address < info.2.StartAddress + info.2.SizeInBytes

instance (info : buffer_info) (address : Nat) : Decidable (covers info address) := by
  unfold covers; infer_instance

/-- Two ranges have no address in common. -/
def ranges_disjoint (r q : D3D12_GPU_VIRTUAL_ADDRESS_RANGE) : Prop :=
  r.SizeInBytes = 0 ∨ q.SizeInBytes = 0 ∨
    r.StartAddress + r.SizeInBytes ≤ q.StartAddress ∨
    q.StartAddress + q.SizeInBytes ≤ r.StartAddress

instance (r q : D3D12_GPU_VIRTUAL_ADDRESS_RANGE) : Decidable (ranges_disjoint r q) := by
  unfold ranges_disjoint; infer_instance

/-- The entries of a buffer table, taken two at a time by position, are disjoint. -/
def non_overlapping (tbl : List buffer_info) : Prop :=
  tbl.Pairwise (fun a b => ranges_disjoint a.2 b.2)

instance (tbl : List buffer_info) : Decidable (non_overlapping tbl) := by
  unfold non_overlapping; infer_instance

/-- The only-match lookup of the specification, which does not depend on the order of
the table: address 0 is the null binding; otherwise, when exactly one registered range
holds the address, the answer is its resource and the distance from its base, and in
every other case the address is not found. -/
def resolve_gpu_address_only_match (tbl : List buffer_info) (address : Nat) :
    gpu_address_result :=
  if address = 0 then
    ⟨true, 0, 0⟩
  else
    match tbl.filter (fun info => decide (covers info address)) with
    | [info] => ⟨true, info.1, address - info.2.StartAddress⟩
    | _ => ⟨false, 0, 0⟩

/-! ## Specification vocabulary for descriptor heaps -/

/-- The elements at the positions 0, 2, 4, ... of a list. -/
def even_entries {α : Type} : List α → List α
  | [] => []
  | [a] => [a]
  | a :: _ :: rest => a :: even_entries rest

/-- The heap has an entry in the range table `_descriptor_heaps`, entries being told
apart by the heap pointer as in `unregister_descriptor_heap`. -/
def heap_has_entry (d : device_impl) (heap : ID3D12DescriptorHeap) : Prop :=
  ∃ info ∈ d._descriptor_heaps, info.1.ptr = heap.ptr

instance (d : device_impl) (heap : ID3D12DescriptorHeap) :
    Decidable (heap_has_entry d heap) := by
  unfold heap_has_entry; infer_instance

/-- The map `_descriptor_set_map` has an element keyed by the heap's GPU start handle
whose value is the heap's own CPU start handle and capacity. -/
def set_map_has_heap (d : device_impl) (heap : ID3D12DescriptorHeap) : Prop :=
  unordered_map_find d._descriptor_set_map heap.GetGPUDescriptorHandleForHeapStart =
    some (heap.GetCPUDescriptorHandleForHeapStart, heap.desc_NumDescriptors)

instance (d : device_impl) (heap : ID3D12DescriptorHeap) :
    Decidable (set_map_has_heap d heap) := by
  unfold set_map_has_heap; infer_instance

/-- Book-keeping of a call sequence on the list `live` of the heaps registered so far,
in registration order: a heap is registered only while it is not registered, and it is
unregistered only while it is registered and stands at an even position of `live`. -/
def calls_admissible : List ID3D12DescriptorHeap → List heap_call → Prop
  | _, [] => True
  | live, .register heap :: rest =>
    heap ∉ live ∧ calls_admissible (live ++ [heap]) rest
  | live, .unregister heap :: rest =>
    (∃ pre post, live = pre ++ heap :: post ∧ pre.length % 2 = 0) ∧
      calls_admissible (live.erase heap) rest

/-- Heaps of a call sequence that agree in the pointer or in the GPU start handle are
the same heap. -/
def distinct_handles (calls : List heap_call) : Prop :=
  ∀ c₁ ∈ calls, ∀ c₂ ∈ calls,
    (c₁.heap.GetGPUDescriptorHandleForHeapStart = c₂.heap.GetGPUDescriptorHandleForHeapStart ∨
      c₁.heap.ptr = c₂.heap.ptr) → c₁.heap = c₂.heap

instance (calls : List heap_call) : Decidable (distinct_handles calls) := by
  unfold distinct_handles; infer_instance

/-- The tables of the device agree with the list `live` of registered heaps: the range
table lists exactly these heaps in order, none twice, and `_descriptor_set_map` holds
exactly their GPU start handles, each with the heap's CPU start handle and capacity. -/
def registry_tracks (d : device_impl) (live : List ID3D12DescriptorHeap) : Prop :=
  d._descriptor_heaps.map Prod.fst = live ∧ live.Nodup ∧
  (∀ heap ∈ live, set_map_has_heap d heap) ∧
  (∀ k v, unordered_map_find d._descriptor_set_map k = some v →
    ∃ heap ∈ live, heap.GetGPUDescriptorHandleForHeapStart = k)

/-! ## Lemmas on `resolve_gpu_address` -/

theorem sub64_of_le {a b : Nat} (hba : b ≤ a) (ha : a < UINT64_MOD) :
    sub64 a b = a - b := by
  unfold sub64
  have h1 : a + UINT64_MOD - b = (a - b) + UINT64_MOD := by omega
  rw [h1, Nat.add_mod_right]
  exact Nat.mod_eq_of_lt (by omega)

/-- One step of the loop, in terms of `covers`. -/
theorem resolve_gpu_address_loop_cons (address : Nat) (ha : address < UINT64_MOD)
    (info : buffer_info) (rest : List buffer_info) :
    resolve_gpu_address_loop address (info :: rest) =
      if covers info address then ⟨true, info.1, address - info.2.StartAddress⟩
      else resolve_gpu_address_loop address rest := by
  unfold covers
  by_cases h1 : address < info.2.StartAddress
  · have : ¬ (info.2.StartAddress ≤ address ∧
        address < info.2.StartAddress + info.2.SizeInBytes) := by omega
    simp [resolve_gpu_address_loop, h1, this]
  · have hle : info.2.StartAddress ≤ address := by omega
    have hsub := sub64_of_le hle ha
    by_cases h2 : address - info.2.StartAddress < info.2.SizeInBytes
    · have : info.2.StartAddress ≤ address ∧
          address < info.2.StartAddress + info.2.SizeInBytes := by omega
      simp [resolve_gpu_address_loop, h1, hsub, h2, this]
    · have : ¬ (info.2.StartAddress ≤ address ∧
          address < info.2.StartAddress + info.2.SizeInBytes) := by omega
      simp [resolve_gpu_address_loop, h1, hsub, h2, this]

/-- Entries that do not cover the address are passed over. -/
theorem resolve_gpu_address_loop_skip (address : Nat) (ha : address < UINT64_MOD)
    (pre tail : List buffer_info) (hpre : ∀ x ∈ pre, ¬ covers x address) :
    resolve_gpu_address_loop address (pre ++ tail) =
      resolve_gpu_address_loop address tail := by
  induction pre with
  | nil => rfl
  | cons x xs ih =>
    have hx : ¬ covers x address := hpre x (List.mem_cons_self x xs)
    rw [List.cons_append, resolve_gpu_address_loop_cons address ha, if_neg hx]
    exact ih (fun y hy => hpre y (List.mem_cons_of_mem x hy))

/-- Without a covering entry the loop falls through with zeroed outputs. -/
theorem resolve_gpu_address_loop_none (address : Nat) (ha : address < UINT64_MOD)
    (tbl : List buffer_info) (hnone : ∀ x ∈ tbl, ¬ covers x address) :
    resolve_gpu_address_loop address tbl = ⟨false, 0, 0⟩ := by
  have h := resolve_gpu_address_loop_skip address ha tbl [] hnone
  rw [List.append_nil] at h
  rw [h]
  rfl

/-- Disjoint ranges cover no common address. -/
theorem not_covers_of_disjoint {a b : buffer_info} {address : Nat}
    (hd : ranges_disjoint a.2 b.2) (hb : covers b address) : ¬ covers a address := by
  unfold ranges_disjoint at hd
  unfold covers at hb ⊢
  omega

/-- In a non-overlapping table, any covering entry is the one the loop returns. -/
theorem resolve_gpu_address_loop_unique (address : Nat) (ha : address < UINT64_MOD)
    (tbl : List buffer_info) (hno : non_overlapping tbl) (info : buffer_info)
    (hmem : info ∈ tbl) (hcov : covers info address) :
    resolve_gpu_address_loop address tbl =
      ⟨true, info.1, address - info.2.StartAddress⟩ := by
  obtain ⟨pre, post, hsplit⟩ := List.append_of_mem hmem
  subst hsplit
  have hpre : ∀ x ∈ pre, ¬ covers x address := by
    intro x hx
    have hp := (List.pairwise_append.mp hno).2.2 x hx info (List.mem_cons_self info post)
    exact not_covers_of_disjoint hp hcov
  rw [resolve_gpu_address_loop_skip address ha pre _ hpre,
    resolve_gpu_address_loop_cons address ha, if_pos hcov]

/-- Outside the null address the function is its loop. -/
theorem resolve_gpu_address_of_ne_zero (d : device_impl) {address : Nat}
    (h0 : address ≠ 0) :
    resolve_gpu_address d address =
      resolve_gpu_address_loop address d._buffer_gpu_addresses := by
  simp [resolve_gpu_address, h0]

/-- In a non-overlapping table, an entry that holds the address is the only one that
does. -/
theorem filter_covers_of_mem (address : Nat) :
    ∀ (tbl : List buffer_info), non_overlapping tbl → ∀ info ∈ tbl,
      covers info address →
      tbl.filter (fun x => decide (covers x address)) = [info]
  | [], _, info, hmem, _ => by simp at hmem
  | x :: xs, hno, info, hmem, hcov => by
    have hpw := List.pairwise_cons.mp hno
    by_cases hx : covers x address
    · have hxs : ∀ y ∈ xs, ¬ covers y address := by
        intro y hy hcy
        exact not_covers_of_disjoint (hpw.1 y hy) hcy hx
      have hinfo : info = x := by
        rcases List.mem_cons.mp hmem with h | h
        · exact h
        · exact absurd hcov (hxs info h)
      have hnil : xs.filter (fun y => decide (covers y address)) = [] := by
        rw [List.filter_eq_nil_iff]
        intro y hy
        simpa using hxs y hy
      rw [List.filter_cons_of_pos (by simpa using hx), hnil, hinfo]
    · have hin : info ∈ xs := by
        rcases List.mem_cons.mp hmem with h | h
        · exact absurd (h ▸ hcov) hx
        · exact h
      rw [List.filter_cons_of_neg (by simpa using hx)]
      exact filter_covers_of_mem address xs hpw.2 info hin hcov

/-- The only-match lookup at an address held by an entry of a non-overlapping table. -/
theorem resolve_gpu_address_only_match_of_mem (address : Nat) (h0 : address ≠ 0)
    (tbl : List buffer_info) (hno : non_overlapping tbl) (info : buffer_info)
    (hmem : info ∈ tbl) (hcov : covers info address) :
    resolve_gpu_address_only_match tbl address =
      ⟨true, info.1, address - info.2.StartAddress⟩ := by
  simp only [resolve_gpu_address_only_match, h0, if_false,
    filter_covers_of_mem address tbl hno info hmem hcov]

/-- The only-match lookup at an address that no entry holds. -/
theorem resolve_gpu_address_only_match_none (address : Nat) (h0 : address ≠ 0)
    (tbl : List buffer_info) (hnone : ∀ x ∈ tbl, ¬ covers x address) :
    resolve_gpu_address_only_match tbl address = ⟨false, 0, 0⟩ := by
  have hnil : tbl.filter (fun y => decide (covers y address)) = [] := by
    rw [List.filter_eq_nil_iff]
    intro y hy
    simpa using hnone y hy
  simp only [resolve_gpu_address_only_match, h0, if_false, hnil]

/-! ## Lemmas on the descriptor-heap table -/

/-- The loop of `unregister_descriptor_heap` steps over an even number of entries that
are not owned by the heap. -/
theorem unregister_descriptor_heap_loop_skip_even (heap : ID3D12DescriptorHeap) :
    ∀ (pre : List heap_info), pre.length % 2 = 0 →
      (∀ x ∈ pre, x.1.ptr ≠ heap.ptr) → ∀ tail : List heap_info,
      unregister_descriptor_heap_loop heap (pre ++ tail) =
        match unregister_descriptor_heap_loop heap tail with
        | .ok t => .ok (pre ++ t)
        | .error f => .error f
  | [], _, _, tail => by
    rw [List.nil_append]
    cases h : unregister_descriptor_heap_loop heap tail <;> simp
  | [_], hlen, _, _ => by simp at hlen
  | a :: b :: rest, hlen, hne, tail => by
    have hlen2 : rest.length % 2 = 0 := by
      simp only [List.length_cons] at hlen
      omega
    have ha : a.1.ptr ≠ heap.ptr := hne a (by simp)
    have ih := unregister_descriptor_heap_loop_skip_even heap rest hlen2
      (fun x hx => hne x (by simp [hx])) tail
    simp only [List.cons_append, unregister_descriptor_heap_loop, if_neg ha]
    have happ : rest.append tail = rest ++ tail := rfl
    rw [happ, ih]
    cases unregister_descriptor_heap_loop heap tail <;> rfl

/-- On a table of odd length with no entry of the heap at an even position, the loop
of `unregister_descriptor_heap` increments the iterator past `end()`. -/
theorem unregister_descriptor_heap_loop_past_end (heap : ID3D12DescriptorHeap) :
    ∀ (tbl : List heap_info), tbl.length % 2 = 1 →
      (∀ x ∈ even_entries tbl, x.1.ptr ≠ heap.ptr) →
      unregister_descriptor_heap_loop heap tbl = .error Fault.iterator_past_end
  | [], hlen, _ => by simp at hlen
  | [a], _, hne => by
    have ha : a.1.ptr ≠ heap.ptr := hne a (by simp [even_entries])
    simp [unregister_descriptor_heap_loop, ha]
  | a :: b :: rest, hlen, hne => by
    have hlen2 : rest.length % 2 = 1 := by
      simp only [List.length_cons] at hlen
      omega
    have ha : a.1.ptr ≠ heap.ptr := hne a (by simp [even_entries])
    have ih := unregister_descriptor_heap_loop_past_end heap rest hlen2
      (fun x hx => hne x (by simp [even_entries, hx]))
    simp [unregister_descriptor_heap_loop, ha, ih]

/-- The three ways the loop of `unregister_descriptor_heap` can end: past the end of
the table (odd length, no entry of the heap at an even position), at `end()` with the
table unchanged, or after erasing one entry of the heap. -/
theorem unregister_descriptor_heap_loop_cases (heap : ID3D12DescriptorHeap) :
    ∀ (tbl : List heap_info),
      (unregister_descriptor_heap_loop heap tbl = .error Fault.iterator_past_end ∧
        tbl.length % 2 = 1 ∧ ∀ x ∈ even_entries tbl, x.1.ptr ≠ heap.ptr) ∨
      (unregister_descriptor_heap_loop heap tbl = .ok tbl ∧
        tbl.length % 2 = 0 ∧ ∀ x ∈ even_entries tbl, x.1.ptr ≠ heap.ptr) ∨
      (∃ pre info post, tbl = pre ++ info :: post ∧ info.1.ptr = heap.ptr ∧
        unregister_descriptor_heap_loop heap tbl = .ok (pre ++ post))
  | [] => by
    right; left
    simp [unregister_descriptor_heap_loop, even_entries]
  | [a] => by
    by_cases ha : a.1.ptr = heap.ptr
    · right; right
      exact ⟨[], a, [], rfl, ha, by simp [unregister_descriptor_heap_loop, ha]⟩
    · left
      simp [unregister_descriptor_heap_loop, even_entries, ha]
  | a :: b :: rest => by
    by_cases ha : a.1.ptr = heap.ptr
    · right; right
      exact ⟨[], a, b :: rest, rfl, ha, by simp [unregister_descriptor_heap_loop, ha]⟩
    · rcases unregister_descriptor_heap_loop_cases heap rest with
        ⟨he, hlen, hne⟩ | ⟨hk, hlen, hne⟩ | ⟨pre, info, post, hsplit, hinfo, hk⟩
      · left
        refine ⟨by simp [unregister_descriptor_heap_loop, ha, he], ?_, ?_⟩
        · simp only [List.length_cons]
          omega
        · intro x hx
          simp only [even_entries, List.mem_cons] at hx
          rcases hx with rfl | hx
          · exact ha
          · exact hne x hx
      · right; left
        refine ⟨by simp [unregister_descriptor_heap_loop, ha, hk], ?_, ?_⟩
        · simp only [List.length_cons]
          omega
        · intro x hx
          simp only [even_entries, List.mem_cons] at hx
          rcases hx with rfl | hx
          · exact ha
          · exact hne x hx
      · right; right
        refine ⟨a :: b :: pre, info, post, by simp [hsplit], hinfo, ?_⟩
        simp [unregister_descriptor_heap_loop, ha, hk]

/-- Entries of another type, or whose start address is not the handle's remainder,
are passed over by the loop of `resolve_descriptor_handle`. -/
theorem resolve_descriptor_handle_loop_skip (NDEBUG : Bool)
    (hs : D3D12_DESCRIPTOR_HEAP_TYPE → Nat) (handle : Nat)
    (type : D3D12_DESCRIPTOR_HEAP_TYPE) (hpos : 0 < hs type)
    (pre tail : List heap_info)
    (hpre : ∀ x ∈ pre, ¬ (x.1.desc_Type = type ∧ x.2.StartAddress = handle % hs type)) :
    resolve_descriptor_handle_loop NDEBUG hs handle type (pre ++ tail) =
      resolve_descriptor_handle_loop NDEBUG hs handle type tail := by
  induction pre with
  | nil => rfl
  | cons x xs ih =>
    have hx := hpre x (List.mem_cons_self x xs)
    have ih2 := ih (fun y hy => hpre y (List.mem_cons_of_mem x hy))
    have hne : hs type ≠ 0 := by omega
    by_cases ht : x.1.desc_Type = type
    · have hst : handle % hs type ≠ x.2.StartAddress := fun h => hx ⟨ht, h.symm⟩
      simp [resolve_descriptor_handle_loop, ht, hne, hst, ih2]
    · simp [resolve_descriptor_handle_loop, ht, ih2]

/-- A handle whose remainder by the stride is `b` lies a whole number of strides
above `b`. -/
theorem stride_dvd_of_mod_eq {h s b : Nat} (hmod : h % s = b) :
    (s : Int) ∣ (h : Int) - (b : Int) := by
  have hdm : s * (h / s) + h % s = h := Nat.div_add_mod h s
  rw [hmod] at hdm
  generalize h / s = q at hdm
  refine ⟨(q : Int), ?_⟩
  have hcast : ((s * q + b : Nat) : Int) = (h : Int) := by rw [hdm]
  push_cast at hcast
  linarith

/-- Entries whose start address is not the handle's remainder can be removed from the
table without changing the result of the loop of `resolve_descriptor_handle`. -/
theorem resolve_descriptor_handle_loop_filter (NDEBUG : Bool)
    (hs : D3D12_DESCRIPTOR_HEAP_TYPE → Nat) (handle : Nat)
    (type : D3D12_DESCRIPTOR_HEAP_TYPE) (hpos : 0 < hs type)
    (keep : heap_info → Bool) (tbl : List heap_info)
    (hdrop : ∀ x ∈ tbl, keep x = false → x.2.StartAddress ≠ handle % hs type) :
    resolve_descriptor_handle_loop NDEBUG hs handle type tbl =
      resolve_descriptor_handle_loop NDEBUG hs handle type (tbl.filter keep) := by
  induction tbl with
  | nil => rfl
  | cons x xs ih =>
    have ih2 := ih (fun y hy => hdrop y (List.mem_cons_of_mem x hy))
    have hne : hs type ≠ 0 := by omega
    cases hk : keep x with
    | false =>
      have hst : handle % hs type ≠ x.2.StartAddress :=
        fun h => hdrop x (List.mem_cons_self x xs) hk h.symm
      rw [List.filter_cons_of_neg (by simp [hk]), ← ih2]
      by_cases ht : x.1.desc_Type = type
      · simp [resolve_descriptor_handle_loop, ht, hne, hst]
      · simp [resolve_descriptor_handle_loop, ht]
    | true =>
      rw [List.filter_cons_of_pos (by simp [hk])]
      by_cases ht : x.1.desc_Type = type
      · by_cases hst : handle % hs type = x.2.StartAddress
        · simp [resolve_descriptor_handle_loop, ht, hne, hst]
        · simp [resolve_descriptor_handle_loop, ht, hne, hst, ih2]
      · simp [resolve_descriptor_handle_loop, ht, ih2]

/-- A successful loop of `resolve_descriptor_handle` was decided by an entry of the
requested type whose start address is the handle's remainder by the stride, and its
outputs are computed from that entry. -/
theorem resolve_descriptor_handle_loop_found (NDEBUG : Bool)
    (hs : D3D12_DESCRIPTOR_HEAP_TYPE → Nat) (handle : Nat)
    (type : D3D12_DESCRIPTOR_HEAP_TYPE) (r : descriptor_handle_result)
    (tbl : List heap_info)
    (hok : resolve_descriptor_handle_loop NDEBUG hs handle type tbl = .ok r)
    (hfound : r.found = true) :
    ∃ info ∈ tbl, info.1.desc_Type = type ∧ hs type ≠ 0 ∧
      handle % hs type = info.2.StartAddress ∧
      r = ⟨true, info.1.GetGPUDescriptorHandleForHeapStart,
        (sub64 handle info.2.StartAddress / hs type) % UINT32_MOD,
        some info.1.desc_Flags_SHADER_VISIBLE⟩ := by
  induction tbl with
  | nil =>
    simp only [resolve_descriptor_handle_loop, Except.ok.injEq] at hok
    subst hok
    simp at hfound
  | cons x xs ih =>
    by_cases ht : x.1.desc_Type = type
    · by_cases hz : hs type = 0
      · simp [resolve_descriptor_handle_loop, ht, hz] at hok
      · by_cases hm : handle % hs type = x.2.StartAddress
        · by_cases hassert : NDEBUG = false ∧
              ¬ sub64 handle x.2.StartAddress < x.2.SizeInBytes
          · simp [resolve_descriptor_handle_loop, ht, hz, hm, hassert] at hok
          · simp only [resolve_descriptor_handle_loop, ht, hz, hm, hassert, ne_eq,
              not_true_eq_false, if_false, Except.ok.injEq] at hok
            exact ⟨x, List.mem_cons_self x xs, ht, hz, hm, by rw [← hok]⟩
        · simp only [resolve_descriptor_handle_loop, ht, hz, hm, ne_eq,
            not_true_eq_false, not_false_eq_true, if_false, if_true] at hok
          obtain ⟨info, hmem, hrest⟩ := ih hok
          exact ⟨info, List.mem_cons_of_mem x hmem, hrest⟩
    · simp only [resolve_descriptor_handle_loop, ht, ne_eq, not_false_eq_true,
        if_true] at hok
      obtain ⟨info, hmem, hrest⟩ := ih hok
      exact ⟨info, List.mem_cons_of_mem x hmem, hrest⟩

/-! ## Lemmas on `_descriptor_set_map` -/

/-- Looking a key up after `erase`. -/
theorem unordered_map_find_erase {β : Type} (m : List (Nat × β)) (key k : Nat) :
    unordered_map_find (unordered_map_erase m key) k =
      if k = key then none else unordered_map_find m k := by
  induction m with
  | nil => simp [unordered_map_erase, unordered_map_find]
  | cons kv rest ih =>
    obtain ⟨k0, v0⟩ := kv
    unfold unordered_map_erase at ih ⊢
    by_cases h0 : k0 = key
    · subst h0
      rw [List.filter_cons_of_neg (by simp), ih]
      by_cases hk : k = k0
      · simp [hk]
      · have hk2 : ¬ k0 = k := fun h => hk h.symm
        simp [unordered_map_find, hk, hk2]
    · rw [List.filter_cons_of_pos (by simp [h0])]
      by_cases hk : k0 = k
      · subst hk
        simp [unordered_map_find, h0]
      · simp only [unordered_map_find, hk, if_false]
        exact ih

/-- Looking a key up after an `emplace` of a key that was absent. -/
theorem unordered_map_find_emplace_new {β : Type} (m : List (Nat × β)) (key k : Nat)
    (value : β) (habsent : unordered_map_find m key = none) :
    unordered_map_find (unordered_map_emplace m key value) k =
      if key = k then some value else unordered_map_find m k := by
  simp [unordered_map_emplace, habsent, unordered_map_find]

/-- Registering a heap that is not registered keeps the tables in step with the list
of registered heaps. -/
theorem registry_tracks_register (hs : D3D12_DESCRIPTOR_HEAP_TYPE → Nat)
    (U : List ID3D12DescriptorHeap)
    (hinj : ∀ a ∈ U, ∀ b ∈ U,
      (a.GetGPUDescriptorHandleForHeapStart = b.GetGPUDescriptorHandleForHeapStart ∨
        a.ptr = b.ptr) → a = b)
    (d : device_impl) (live : List ID3D12DescriptorHeap) (H : ID3D12DescriptorHeap)
    (hlive : ∀ K ∈ live, K ∈ U) (hH : H ∈ U) (hnew : H ∉ live)
    (htr : registry_tracks d live) :
    registry_tracks (register_descriptor_heap hs d H) (live ++ [H]) := by
  obtain ⟨hmap, hnd, hhas, hkeys⟩ := htr
  have habsent : unordered_map_find d._descriptor_set_map
      H.GetGPUDescriptorHandleForHeapStart = none := by
    cases hf : unordered_map_find d._descriptor_set_map
        H.GetGPUDescriptorHandleForHeapStart with
    | none => rfl
    | some v =>
      obtain ⟨K, hK, hgpu⟩ := hkeys _ v hf
      have : K = H := hinj K (hlive K hK) H hH (Or.inl hgpu)
      exact absurd (this ▸ hK) hnew
  refine ⟨?_, ?_, ?_, ?_⟩
  · simp [register_descriptor_heap, hmap]
  · rw [List.nodup_append]
    refine ⟨hnd, List.nodup_singleton H, ?_⟩
    intro a ha hb
    rw [List.mem_singleton] at hb
    exact hnew (hb ▸ ha)
  · intro K hK
    unfold set_map_has_heap
    simp only [register_descriptor_heap]
    rw [unordered_map_find_emplace_new _ _ _ _ habsent]
    rw [List.mem_append, List.mem_singleton] at hK
    rcases hK with hK | rfl
    · have hne : ¬ H.GetGPUDescriptorHandleForHeapStart =
          K.GetGPUDescriptorHandleForHeapStart := by
        intro hg
        have : H = K := hinj H hH K (hlive K hK) (Or.inl hg)
        exact hnew (this ▸ hK)
      rw [if_neg hne]
      exact hhas K hK
    · simp
  · intro k v hf
    simp only [register_descriptor_heap] at hf
    rw [unordered_map_find_emplace_new _ _ _ _ habsent] at hf
    by_cases hk : H.GetGPUDescriptorHandleForHeapStart = k
    · exact ⟨H, by simp, hk⟩
    · rw [if_neg hk] at hf
      obtain ⟨K, hK, hgpu⟩ := hkeys k v hf
      exact ⟨K, by simp [hK], hgpu⟩

/-- Unregistering a registered heap whose entry stands at an even position returns,
and keeps the tables in step with the list of registered heaps. -/
theorem registry_tracks_unregister (U : List ID3D12DescriptorHeap)
    (hinj : ∀ a ∈ U, ∀ b ∈ U,
      (a.GetGPUDescriptorHandleForHeapStart = b.GetGPUDescriptorHandleForHeapStart ∨
        a.ptr = b.ptr) → a = b)
    (d : device_impl) (live pre post : List ID3D12DescriptorHeap)
    (H : ID3D12DescriptorHeap)
    (hlive : ∀ K ∈ live, K ∈ U) (hH : H ∈ U)
    (hsplit : live = pre ++ H :: post) (heven : pre.length % 2 = 0)
    (htr : registry_tracks d live) :
    ∃ d', unregister_descriptor_heap d H = .ok d' ∧
      registry_tracks d' (live.erase H) := by
  obtain ⟨hmap, hnd, hhas, hkeys⟩ := htr
  have hnotpre : H ∉ pre := by
    intro hin
    rw [hsplit, List.nodup_append] at hnd
    exact hnd.2.2 hin (List.mem_cons_self H post)
  have herase : live.erase H = pre ++ post := by
    rw [hsplit, List.erase_append_right _ hnotpre, List.erase_cons_head]
  have hmap2 := hmap
  rw [hsplit] at hmap2
  obtain ⟨l₁, l₂, htbl, h1, h2⟩ := List.map_eq_append_iff.mp hmap2
  obtain ⟨a, l, hl2, ha, hl⟩ := List.map_eq_cons_iff.mp h2
  subst hl2
  have hlen : l₁.length % 2 = 0 := by
    rw [← h1, List.length_map] at heven
    exact heven
  have hptr : ∀ x ∈ l₁, x.1.ptr ≠ H.ptr := by
    intro x hx hp
    have hxpre : x.1 ∈ pre := h1 ▸ List.mem_map_of_mem Prod.fst hx
    have hxlive : x.1 ∈ live := by
      rw [hsplit]
      exact List.mem_append_left _ hxpre
    have : x.1 = H := hinj x.1 (hlive _ hxlive) H hH (Or.inr hp)
    exact hnotpre (this ▸ hxpre)
  have hloop : unregister_descriptor_heap_loop H d._descriptor_heaps =
      .ok (l₁ ++ l) := by
    have hap : a.1.ptr = H.ptr := by rw [ha]
    rw [htbl, unregister_descriptor_heap_loop_skip_even H l₁ hlen hptr (a :: l)]
    cases l <;> simp [unregister_descriptor_heap_loop, hap]
  refine ⟨⟨d._views, d._buffer_gpu_addresses, l₁ ++ l,
      unordered_map_erase d._descriptor_set_map H.GetGPUDescriptorHandleForHeapStart⟩,
    by simp only [unregister_descriptor_heap, hloop], ?_, ?_, ?_, ?_⟩
  · rw [herase]
    simp [h1, hl]
  · exact hnd.erase H
  · intro K hK
    obtain ⟨hne, hKl⟩ := (List.Nodup.mem_erase_iff hnd).mp hK
    have hg : ¬ K.GetGPUDescriptorHandleForHeapStart =
        H.GetGPUDescriptorHandleForHeapStart :=
      fun hg => hne (hinj K (hlive K hKl) H hH (Or.inl hg))
    unfold set_map_has_heap
    simp only
    rw [unordered_map_find_erase, if_neg hg]
    exact hhas K hKl
  · intro k v hf
    simp only at hf
    rw [unordered_map_find_erase] at hf
    by_cases hk : k = H.GetGPUDescriptorHandleForHeapStart
    · rw [if_pos hk] at hf
      exact absurd hf (by simp)
    · rw [if_neg hk] at hf
      obtain ⟨K, hK, hgpu⟩ := hkeys k v hf
      refine ⟨K, (List.Nodup.mem_erase_iff hnd).mpr ⟨?_, hK⟩, hgpu⟩
      intro hKH
      exact hk (by rw [← hgpu, hKH])

/-- An admissible call sequence runs to the end and keeps the tables in step with the
list of registered heaps. -/
theorem run_heap_calls_tracks (hs : D3D12_DESCRIPTOR_HEAP_TYPE → Nat)
    (U : List ID3D12DescriptorHeap)
    (hinj : ∀ a ∈ U, ∀ b ∈ U,
      (a.GetGPUDescriptorHandleForHeapStart = b.GetGPUDescriptorHandleForHeapStart ∨
        a.ptr = b.ptr) → a = b) :
    ∀ (calls : List heap_call) (d : device_impl) (live : List ID3D12DescriptorHeap),
      (∀ c ∈ calls, c.heap ∈ U) → (∀ K ∈ live, K ∈ U) → registry_tracks d live →
      calls_admissible live calls →
      ∃ d' live', run_heap_calls hs d calls = .ok d' ∧ registry_tracks d' live' ∧
        ∀ K ∈ live', K ∈ U := by
  intro calls
  induction calls with
  | nil =>
    intro d live _ hlive htr _
    exact ⟨d, live, rfl, htr, hlive⟩
  | cons c rest ih =>
    intro d live hU hlive htr hadm
    have hrest : ∀ c' ∈ rest, c'.heap ∈ U :=
      fun c' hc' => hU c' (List.mem_cons_of_mem c hc')
    cases c with
    | register H =>
      have hH : H ∈ U := hU (.register H) (List.mem_cons_self _ _)
      obtain ⟨hnew, hadm'⟩ := hadm
      have htr' := registry_tracks_register hs U hinj d live H hlive hH hnew htr
      have hlive' : ∀ K ∈ live ++ [H], K ∈ U := by
        intro K hK
        rw [List.mem_append, List.mem_singleton] at hK
        rcases hK with hK | rfl
        · exact hlive K hK
        · exact hH
      exact ih _ _ hrest hlive' htr' hadm'
    | unregister H =>
      have hH : H ∈ U := hU (.unregister H) (List.mem_cons_self _ _)
      obtain ⟨⟨pre, post, hsplit, heven⟩, hadm'⟩ := hadm
      obtain ⟨d', hun, htr'⟩ :=
        registry_tracks_unregister U hinj d live pre post H hlive hH hsplit heven htr
      have hlive' : ∀ K ∈ live.erase H, K ∈ U :=
        fun K hK => hlive K (List.mem_of_mem_erase hK)
      obtain ⟨d'', live'', hrun, hfin⟩ := ih d' _ hrest hlive' htr' hadm'
      exact ⟨d'', live'', by simp only [run_heap_calls, hun, hrun], hfin⟩

/-! ## Claims -/

/-- C1. For a non-zero 64-bit address, `resolve_gpu_address` succeeds with
`(R, address - base)` for the first entry `(R, base, size)` in registration order with
`base ≤ address < base + size` (exact sum); it reports not-found, with zeroed outputs,
exactly when no entry satisfies this. -/
theorem resolve_gpu_address_first_match (d : device_impl) (address : Nat)
    (h0 : address ≠ 0) (ha : address < UINT64_MOD) :
    (∀ pre info post, d._buffer_gpu_addresses = pre ++ info :: post →
        (∀ x ∈ pre, ¬ covers x address) → covers info address →
        resolve_gpu_address d address =
          ⟨true, info.1, address - info.2.StartAddress⟩) ∧
    ((resolve_gpu_address d address).found = false ↔
        ∀ info ∈ d._buffer_gpu_addresses, ¬ covers info address) ∧
    ((resolve_gpu_address d address).found = false →
        resolve_gpu_address d address = ⟨false, 0, 0⟩) := by
  have hres : resolve_gpu_address d address =
      resolve_gpu_address_loop address d._buffer_gpu_addresses := by
    simp [resolve_gpu_address, h0]
  have hiff : (resolve_gpu_address d address).found = false ↔
      ∀ info ∈ d._buffer_gpu_addresses, ¬ covers info address := by
    rw [hres]
    constructor
    · intro hnf info hmem hcov
      obtain ⟨pre, post, hsplit⟩ := List.append_of_mem hmem
      clear hmem
      generalize d._buffer_gpu_addresses = tbl at hnf hsplit
      subst hsplit
      induction pre with
      | nil =>
        rw [List.nil_append, resolve_gpu_address_loop_cons address ha, if_pos hcov] at hnf
        simp at hnf
      | cons x xs ih =>
        rw [List.cons_append, resolve_gpu_address_loop_cons address ha] at hnf
        by_cases hx : covers x address
        · rw [if_pos hx] at hnf
          simp at hnf
        · rw [if_neg hx] at hnf
          exact ih hnf
    · intro hnone
      rw [resolve_gpu_address_loop_none address ha _ hnone]
  refine ⟨?_, hiff, ?_⟩
  · intro pre info post hsplit hpre hcov
    rw [hres, hsplit, resolve_gpu_address_loop_skip address ha pre _ hpre,
      resolve_gpu_address_loop_cons address ha, if_pos hcov]
  · intro hnf
    rw [hres]
    exact resolve_gpu_address_loop_none address ha _ (hiff.mp hnf)

/-- C1, the scenario: with the single range `[0x8000, 0x8000 + 4096)` owned by the
resource `0x51A0`, the address `0x8400` resolves to that resource at offset `0x400`. -/
theorem resolve_gpu_address_first_match_witness :
    (0x8400 : Nat) ≠ 0 ∧ 0x8400 < UINT64_MOD ∧
    resolve_gpu_address ⟨[], [(0x51A0, ⟨0x8000, 4096⟩)], [], []⟩ 0x8400 =
      ⟨true, 0x51A0, 0x400⟩ :=
  ⟨by decide, by decide,
    (resolve_gpu_address_first_match ⟨[], [(0x51A0, ⟨0x8000, 4096⟩)], [], []⟩ 0x8400
      (by decide) (by decide)).1 [] (0x51A0, ⟨0x8000, 4096⟩) [] rfl
      (by simp) (by decide)⟩

/-- C2, as stated, fails on the code in three places. A range based at address 0:
resolving its base takes the null-address exit and yields the null resource. An empty
range (size 0): its base is not resolved at all. A range based at address 1: the
address `base - 1 = 0` lies in no range and still resolves successfully. -/
theorem resolve_gpu_address_range_bounds_counterexample :
    (non_overlapping [(0x51A0, ⟨0, 16⟩)] ∧
      resolve_gpu_address ⟨[], [(0x51A0, ⟨0, 16⟩)], [], []⟩ 0 ≠ ⟨true, 0x51A0, 0⟩) ∧
    (non_overlapping [(0x51A0, ⟨0x8000, 0⟩)] ∧
      resolve_gpu_address ⟨[], [(0x51A0, ⟨0x8000, 0⟩)], [], []⟩ 0x8000 ≠
        ⟨true, 0x51A0, 0⟩) ∧
    (non_overlapping [(0x51A0, ⟨1, 16⟩)] ∧
      (∀ info ∈ [((0x51A0, ⟨1, 16⟩) : buffer_info)], ¬ covers info (1 - 1)) ∧
      resolve_gpu_address ⟨[], [(0x51A0, ⟨1, 16⟩)], [], []⟩ (1 - 1) = ⟨true, 0, 0⟩) := by
  refine ⟨⟨by decide, by decide⟩, ⟨by decide, by decide⟩, by decide, by decide, by decide⟩

/-- C2, amended. In a pairwise non-overlapping table, for a registered range
`(base, size, R)` with `base ≠ 0`, `size > 0` and last address `base + size - 1` a
64-bit value: resolving `base` gives `(R, 0)` and resolving `base + size - 1` gives
`(R, size - 1)`; resolving `base + size` (when it is a 64-bit value) and resolving
`base - 1` (when it is not 0) report not-found whenever no other registered range
covers that address. -/
theorem resolve_gpu_address_range_bounds (d : device_impl) (R base size : Nat)
    (hno : non_overlapping d._buffer_gpu_addresses)
    (hmem : (R, ⟨base, size⟩) ∈ d._buffer_gpu_addresses)
    (hbase : base ≠ 0) (hsize : 0 < size) (hfit : base + size - 1 < UINT64_MOD) :
    resolve_gpu_address d base = ⟨true, R, 0⟩ ∧
    resolve_gpu_address d (base + size - 1) = ⟨true, R, size - 1⟩ ∧
    (base + size < UINT64_MOD →
      (∀ info ∈ d._buffer_gpu_addresses, info ≠ (R, ⟨base, size⟩) →
        ¬ covers info (base + size)) →
      resolve_gpu_address d (base + size) = ⟨false, 0, 0⟩) ∧
    (base - 1 ≠ 0 →
      (∀ info ∈ d._buffer_gpu_addresses, info ≠ (R, ⟨base, size⟩) →
        ¬ covers info (base - 1)) →
      resolve_gpu_address d (base - 1) = ⟨false, 0, 0⟩) := by
  have hself : ∀ a, ¬ (base ≤ a ∧ a < base + size) →
      (∀ info ∈ d._buffer_gpu_addresses, info ≠ (R, ⟨base, size⟩) → ¬ covers info a) →
      ∀ info ∈ d._buffer_gpu_addresses, ¬ covers info a := by
    intro a hout hother info hin
    by_cases heq : info = (R, ⟨base, size⟩)
    · subst heq
      exact hout
    · exact hother info hin heq
  refine ⟨?_, ?_, ?_, ?_⟩
  · rw [resolve_gpu_address_of_ne_zero d hbase,
      resolve_gpu_address_loop_unique base (by omega) _ hno _ hmem
        (by unfold covers; simp only; omega)]
    simp
  · rw [resolve_gpu_address_of_ne_zero d (by omega),
      resolve_gpu_address_loop_unique (base + size - 1) hfit _ hno _ hmem
        (by unfold covers; simp only; omega)]
    have : base + size - 1 - base = size - 1 := by omega
    simp [this]
  · intro hlt hother
    rw [resolve_gpu_address_of_ne_zero d (by omega)]
    exact resolve_gpu_address_loop_none _ hlt _ (hself _ (by omega) hother)
  · intro hne hother
    rw [resolve_gpu_address_of_ne_zero d hne]
    exact resolve_gpu_address_loop_none _ (by omega) _ (hself _ (by omega) hother)

/-- C2 amended, at the table holding the single range `[0x8000, 0x8000 + 4096)` of
resource `0x51A0`: both ends resolve, both neighbours are not found. -/
theorem resolve_gpu_address_range_bounds_witness :
    resolve_gpu_address ⟨[], [(0x51A0, ⟨0x8000, 4096⟩)], [], []⟩ 0x8000 =
      ⟨true, 0x51A0, 0⟩ ∧
    resolve_gpu_address ⟨[], [(0x51A0, ⟨0x8000, 4096⟩)], [], []⟩ (0x8000 + 4096 - 1) =
      ⟨true, 0x51A0, 4096 - 1⟩ ∧
    resolve_gpu_address ⟨[], [(0x51A0, ⟨0x8000, 4096⟩)], [], []⟩ (0x8000 + 4096) =
      ⟨false, 0, 0⟩ ∧
    resolve_gpu_address ⟨[], [(0x51A0, ⟨0x8000, 4096⟩)], [], []⟩ (0x8000 - 1) =
      ⟨false, 0, 0⟩ :=
  have h := resolve_gpu_address_range_bounds ⟨[], [(0x51A0, ⟨0x8000, 4096⟩)], [], []⟩
    0x51A0 0x8000 4096 (by decide) (by simp) (by decide) (by decide) (by decide)
  ⟨h.1, h.2.1, h.2.2.1 (by decide) (by simp), h.2.2.2 (by decide) (by simp)⟩

/-- C3. For every registry state, `resolve_gpu_address(0)` returns success with the
null resource and offset 0. -/
theorem resolve_gpu_address_zero (d : device_impl) :
    resolve_gpu_address d 0 = ⟨true, 0, 0⟩ := by
  simp [resolve_gpu_address]

/-- C4 fails on the code. Each round of the loop in `unregister_descriptor_heap`
advances the iterator twice, so only the entries at even positions are compared with
the heap. When an odd number of other heaps is registered, `register_descriptor_heap(H)`
puts H at an odd position and the later `unregister_descriptor_heap(H)` returns with
the range table unchanged: H's entry is still there. -/
theorem register_unregister_descriptor_heap_odd
    (_descriptor_handle_size : D3D12_DESCRIPTOR_HEAP_TYPE → Nat) (d : device_impl)
    (H : ID3D12DescriptorHeap)
    (hnot : ∀ info ∈ d._descriptor_heaps, info.1.ptr ≠ H.ptr)
    (hodd : d._descriptor_heaps.length % 2 = 1) :
    (unregister_descriptor_heap (register_descriptor_heap _descriptor_handle_size d H)
        H).map (fun d' => d'._descriptor_heaps) =
      .ok (d._descriptor_heaps ++ [(H, descriptor_heap_range _descriptor_handle_size H)]) := by
  rcases List.eq_nil_or_concat d._descriptor_heaps with hnil | ⟨pre, x, hcat⟩
  · rw [hnil] at hodd
    simp at hodd
  · rw [List.concat_eq_append] at hcat
    have hlen : pre.length % 2 = 0 := by
      rw [hcat] at hodd
      simp only [List.length_append, List.length_singleton] at hodd
      omega
    have hpre : ∀ y ∈ pre, y.1.ptr ≠ H.ptr :=
      fun y hy => hnot y (by rw [hcat]; simp [hy])
    have hx : x.1.ptr ≠ H.ptr := hnot x (by rw [hcat]; simp)
    have hloop := unregister_descriptor_heap_loop_skip_even H pre hlen hpre
      [x, (H, descriptor_heap_range _descriptor_handle_size H)]
    have htail : unregister_descriptor_heap_loop H
        [x, (H, descriptor_heap_range _descriptor_handle_size H)] =
        .ok [x, (H, descriptor_heap_range _descriptor_handle_size H)] := by
      simp [unregister_descriptor_heap_loop, hx]
    rw [htail] at hloop
    have happ : d._descriptor_heaps ++ [(H, descriptor_heap_range _descriptor_handle_size H)]
        = pre ++ [x, (H, descriptor_heap_range _descriptor_handle_size H)] := by
      rw [hcat]
      simp
    simp only [unregister_descriptor_heap, register_descriptor_heap, happ, hloop]
    rfl

/-- C4, the failing run: with one other heap registered, registering and then
unregistering the heap `0x200` leaves both entries in the range table, and the handle
of its slot 3 still resolves to its descriptor set `0x20000`. -/
theorem register_unregister_descriptor_heap_odd_witness :
    (unregister_descriptor_heap
        (register_descriptor_heap (fun _ => 32)
          (register_descriptor_heap (fun _ => 32) device_impl.empty
            ⟨0x100, .CBV_SRV_UAV, 8, true, 1, 0x10000⟩)
          ⟨0x200, .CBV_SRV_UAV, 8, true, 2, 0x20000⟩)
        ⟨0x200, .CBV_SRV_UAV, 8, true, 2, 0x20000⟩).map (fun d' => d'._descriptor_heaps) =
      .ok [(⟨0x100, .CBV_SRV_UAV, 8, true, 1, 0x10000⟩, ⟨1, 256⟩),
        (⟨0x200, .CBV_SRV_UAV, 8, true, 2, 0x20000⟩, ⟨2, 256⟩)] ∧
    (unregister_descriptor_heap
        (register_descriptor_heap (fun _ => 32)
          (register_descriptor_heap (fun _ => 32) device_impl.empty
            ⟨0x100, .CBV_SRV_UAV, 8, true, 1, 0x10000⟩)
          ⟨0x200, .CBV_SRV_UAV, 8, true, 2, 0x20000⟩)
        ⟨0x200, .CBV_SRV_UAV, 8, true, 2, 0x20000⟩).bind
      (fun d' => resolve_descriptor_handle false (fun _ => 32) d' (2 + 3 * 32)
        .CBV_SRV_UAV) = .ok ⟨true, 0x20000, 3, some true⟩ :=
  ⟨register_unregister_descriptor_heap_odd (fun _ => 32)
      (register_descriptor_heap (fun _ => 32) device_impl.empty
        ⟨0x100, .CBV_SRV_UAV, 8, true, 1, 0x10000⟩)
      ⟨0x200, .CBV_SRV_UAV, 8, true, 2, 0x20000⟩ (by decide) (by decide),
    by rfl⟩

/-- C5 fails on the code. `register_resource_view` uses `emplace`, which leaves an
element with the same key untouched: when the slot address V is already in the view
map, it keeps its earlier resource after `register_resource_view(R, V)`. -/
theorem register_resource_view_keeps_earlier (d : device_impl) (R V R₀ : Nat)
    (hold : unordered_map_find d._views V = some R₀) :
    unordered_map_find (register_resource_view d R V)._views V = some R₀ := by
  simp [register_resource_view, unordered_map_emplace, hold]

/-- C5, the failing run: the slot `0x40` was registered for resource `0x51A0`; after
`register_resource_view(0x51B0, 0x40)` the lookup of `0x40` still yields `0x51A0`, not
`0x51B0`. -/
theorem register_resource_view_keeps_earlier_witness :
    unordered_map_find
        (register_resource_view (register_resource_view device_impl.empty 0x51A0 0x40)
          0x51B0 0x40)._views 0x40 = some 0x51A0 ∧
      (some 0x51A0 : Option Nat) ≠ some 0x51B0 :=
  ⟨register_resource_view_keeps_earlier
      (register_resource_view device_impl.empty 0x51A0 0x40) 0x51B0 0x40 0x51A0 (by rfl),
    by decide⟩

/-- C6, as stated, fails on the code, already in the scenario it names. The loop
accepts an entry only when `handle % stride` equals the heap's CPU start address, so a
heap whose CPU base is not below the stride is never resolved: with capacity 128,
stride 16 and CPU base `0x1000`, the handle `0x1000 + 5*16` is not found, with or
without assertions. Also, of two entries of one type with the same CPU base 2, only the
earlier one is ever returned: slot 5 of the later heap `0x200` resolves to the set
`0x10000` of the heap `0x100`. And for capacity `2^27` with stride 32 the recorded
size is the 32-bit product 0, so that with assertions even slot 0 fails the
assertion. -/
theorem resolve_descriptor_handle_slot_counterexample :
    resolve_descriptor_handle false (fun _ => 16)
        (register_descriptor_heap (fun _ => 16) device_impl.empty
          ⟨0x200, .RTV, 128, false, 0x1000, 0⟩)
        (0x1000 + 5 * 16) .RTV = .ok ⟨false, 0, 0, none⟩ ∧
    resolve_descriptor_handle true (fun _ => 16)
        (register_descriptor_heap (fun _ => 16) device_impl.empty
          ⟨0x200, .RTV, 128, false, 0x1000, 0⟩)
        (0x1000 + 5 * 16) .RTV = .ok ⟨false, 0, 0, none⟩ ∧
    resolve_descriptor_handle false (fun _ => 32)
        (register_descriptor_heap (fun _ => 32)
          (register_descriptor_heap (fun _ => 32) device_impl.empty
            ⟨0x100, .CBV_SRV_UAV, 8, true, 2, 0x10000⟩)
          ⟨0x200, .CBV_SRV_UAV, 8, true, 2, 0x20000⟩)
        (2 + 5 * 32) .CBV_SRV_UAV = .ok ⟨true, 0x10000, 5, some true⟩ ∧
    resolve_descriptor_handle false (fun _ => 32)
        (register_descriptor_heap (fun _ => 32) device_impl.empty
          ⟨0x200, .CBV_SRV_UAV, 2 ^ 27, true, 5, 0x20000⟩)
        (5 + 0 * 32) .CBV_SRV_UAV = .error Fault.assertion_failed := by
  refine ⟨by rfl, by rfl, by rfl, by rfl⟩

/-- C6, amended. Let H be a registered heap of type T with CPU base `b`, capacity `n`
and stride `s`, such that `b < s` (the CPU base is a heap index used as alignment),
`n * s < 2^32`, and no entry registered before H has type T and start address `b`.
Then for every slot `i < n`, `resolve_descriptor_handle(b + i*s, T)` succeeds and
returns H's descriptor set, offset `i`, and H's shader-visible flag, with or without
assertions. -/
theorem resolve_descriptor_handle_slot (NDEBUG : Bool)
    (_descriptor_handle_size : D3D12_DESCRIPTOR_HEAP_TYPE → Nat) (d : device_impl)
    (H : ID3D12DescriptorHeap) (pre post : List heap_info) (i : Nat)
    (hreg : d._descriptor_heaps =
      pre ++ (H, descriptor_heap_range _descriptor_handle_size H) :: post)
    (hfirst : ∀ x ∈ pre, ¬ (x.1.desc_Type = H.desc_Type ∧
      x.2.StartAddress = H.GetCPUDescriptorHandleForHeapStart))
    (hbase : H.GetCPUDescriptorHandleForHeapStart < _descriptor_handle_size H.desc_Type)
    (hsize : H.desc_NumDescriptors * _descriptor_handle_size H.desc_Type < UINT32_MOD)
    (hi : i < H.desc_NumDescriptors) :
    resolve_descriptor_handle NDEBUG _descriptor_handle_size d
        (H.GetCPUDescriptorHandleForHeapStart + i * _descriptor_handle_size H.desc_Type)
        H.desc_Type =
      .ok ⟨true, H.GetGPUDescriptorHandleForHeapStart, i,
        some H.desc_Flags_SHADER_VISIBLE⟩ := by
  generalize hb : H.GetCPUDescriptorHandleForHeapStart = b at *
  generalize hs : _descriptor_handle_size H.desc_Type = s at *
  generalize hn : H.desc_NumDescriptors = n at *
  have hspos : 0 < s := by omega
  have hmod : (b + i * s) % s = b := by
    rw [Nat.add_mul_mod_self_right]
    exact Nat.mod_eq_of_lt hbase
  have his : i * s < n * s := Nat.mul_lt_mul_of_pos_right hi hspos
  have hsle : s ≤ n * s := Nat.le_mul_of_pos_left s (by omega)
  have h64 : b + i * s < UINT64_MOD := by
    unfold UINT32_MOD at hsize
    unfold UINT64_MOD
    omega
  have hsub : sub64 (b + i * s) b = i * s := by
    rw [sub64_of_le (by omega) h64]
    omega
  have hmul : mul32 n s = n * s := Nat.mod_eq_of_lt hsize
  have hnle : n ≤ n * s := Nat.le_mul_of_pos_right n hspos
  have hi32 : i % UINT32_MOD = i := Nat.mod_eq_of_lt (by omega)
  have hskip := resolve_descriptor_handle_loop_skip NDEBUG _descriptor_handle_size
    (b + i * s) H.desc_Type (by rw [hs]; exact hspos) pre
    ((H, descriptor_heap_range _descriptor_handle_size H) :: post)
    (by rw [hs, hmod]; exact hfirst)
  unfold resolve_descriptor_handle
  rw [hreg, hskip]
  simp [resolve_descriptor_handle_loop, descriptor_heap_range, hs, hb, hn, hmod, hsub,
    hmul, his, hi32, Nat.pos_iff_ne_zero.mp hspos]

/-- C6 amended, at a CPU-only heap with capacity 128, stride 32 and CPU base 5:
resolving `5 + 5*32` returns the heap's set, offset 5, shader-visible = false. -/
theorem resolve_descriptor_handle_slot_witness :
    resolve_descriptor_handle false (fun _ => 32)
        (register_descriptor_heap (fun _ => 32) device_impl.empty
          ⟨0x200, .RTV, 128, false, 5, 0⟩)
        (5 + 5 * 32) .RTV = .ok ⟨true, 0, 5, some false⟩ :=
  resolve_descriptor_handle_slot false (fun _ => 32)
    (register_descriptor_heap (fun _ => 32) device_impl.empty
      ⟨0x200, .RTV, 128, false, 5, 0⟩)
    ⟨0x200, .RTV, 128, false, 5, 0⟩ [] [] 5 (by rfl) (by simp) (by decide) (by decide)
    (by decide)

/-- C7. Let the stride `s` of type T be positive, let every entry owned by heap H
carry H's CPU base `b` as start address, and let the distance of the handle `h` from
`b` be no whole multiple of `s`. Then every entry of H is skipped by
`resolve_descriptor_handle(h, T)`: the call returns what it returns on the table
without H's entries, wherever `h` lies relative to H's range. -/
theorem resolve_descriptor_handle_misaligned (NDEBUG : Bool)
    (_descriptor_handle_size : D3D12_DESCRIPTOR_HEAP_TYPE → Nat) (d : device_impl)
    (H : ID3D12DescriptorHeap) (h : Nat) (T : D3D12_DESCRIPTOR_HEAP_TYPE)
    (hstride : 0 < _descriptor_handle_size T)
    (hreg : ∀ info ∈ d._descriptor_heaps, info.1.ptr = H.ptr →
      info.2.StartAddress = H.GetCPUDescriptorHandleForHeapStart)
    (hmis : ¬ ((_descriptor_handle_size T : Int) ∣
      (h : Int) - (H.GetCPUDescriptorHandleForHeapStart : Int))) :
    resolve_descriptor_handle NDEBUG _descriptor_handle_size d h T =
      resolve_descriptor_handle NDEBUG _descriptor_handle_size
        { d with _descriptor_heaps :=
            d._descriptor_heaps.filter (fun info => decide (info.1.ptr ≠ H.ptr)) }
        h T := by
  unfold resolve_descriptor_handle
  apply resolve_descriptor_handle_loop_filter NDEBUG _descriptor_handle_size h T hstride
  intro x hx hk heq
  have hptr : x.1.ptr = H.ptr := by simpa using hk
  rw [hreg x hx hptr] at heq
  exact hmis (stride_dvd_of_mod_eq heq.symm)

/-- C7, at a heap with CPU base 5, capacity 128 and stride 32: the handle
`5 + 32 + 7` lies inside `[5, 5 + 128*32)` and is not found. -/
theorem resolve_descriptor_handle_misaligned_witness :
    (5 ≤ 5 + 32 + 7 ∧ 5 + 32 + 7 < 5 + 128 * 32) ∧
    resolve_descriptor_handle false (fun _ => 32)
        (register_descriptor_heap (fun _ => 32) device_impl.empty
          ⟨0x200, .RTV, 128, false, 5, 0⟩)
        (5 + 32 + 7) .RTV = .ok ⟨false, 0, 0, none⟩ :=
  ⟨by decide,
    resolve_descriptor_handle_misaligned false (fun _ => 32)
      (register_descriptor_heap (fun _ => 32) device_impl.empty
        ⟨0x200, .RTV, 128, false, 5, 0⟩)
      ⟨0x200, .RTV, 128, false, 5, 0⟩ (5 + 32 + 7) .RTV (by decide) (by decide)
      (by decide)⟩

/-- C8 fails on the code. The loop tests the handle's remainder by the stride, not its
range: with one heap of capacity 4, stride 32 and CPU base 5 (range `[5, 133)`), the
handle `5 + 10*32 = 325` lies outside every registered range, yet the entry is
accepted. With assertions the assertion `address_offset < SizeInBytes` fails; without
them the call returns success with offset 10. -/
theorem resolve_descriptor_handle_out_of_range :
    (∀ info ∈ (register_descriptor_heap (fun _ => 32) device_impl.empty
        ⟨0x200, .RTV, 4, false, 5, 0⟩)._descriptor_heaps,
      ¬ (info.2.StartAddress ≤ 5 + 10 * 32 ∧
        5 + 10 * 32 < info.2.StartAddress + info.2.SizeInBytes)) ∧
    resolve_descriptor_handle false (fun _ => 32)
        (register_descriptor_heap (fun _ => 32) device_impl.empty
          ⟨0x200, .RTV, 4, false, 5, 0⟩)
        (5 + 10 * 32) .RTV = .error Fault.assertion_failed ∧
    resolve_descriptor_handle true (fun _ => 32)
        (register_descriptor_heap (fun _ => 32) device_impl.empty
          ⟨0x200, .RTV, 4, false, 5, 0⟩)
        (5 + 10 * 32) .RTV = .ok ⟨true, 0, 10, some false⟩ := by
  refine ⟨by decide, by rfl, by rfl⟩

/-- C9, as stated, fails: `register_buffer_gpu_address` appends without looking at the
table. Registering the buffer at `0x8000` a second time leaves two equal ranges. -/
theorem register_buffer_gpu_address_overlap_counterexample :
    non_overlapping
      (⟨[], [(0x51A0, ⟨0x8000, 4096⟩)], [], []⟩ : device_impl)._buffer_gpu_addresses ∧
    ¬ non_overlapping
      (register_buffer_gpu_address ⟨[], [(0x51A0, ⟨0x8000, 4096⟩)], [], []⟩
        ⟨0x51A0, 0x8000⟩ 4096)._buffer_gpu_addresses := by
  constructor <;> decide

/-- C9, amended. If the registered buffer ranges are pairwise disjoint and the range
`[GetGPUVirtualAddress(R), GetGPUVirtualAddress(R) + size)` being registered is
disjoint from each of them, the ranges are pairwise disjoint after
`register_buffer_gpu_address(R, size)`. -/
theorem register_buffer_gpu_address_non_overlapping (d : device_impl)
    (R : ID3D12Resource) (size : Nat)
    (hno : non_overlapping d._buffer_gpu_addresses)
    (hnew : ∀ info ∈ d._buffer_gpu_addresses,
      ranges_disjoint info.2 ⟨R.GetGPUVirtualAddress, size⟩) :
    non_overlapping (register_buffer_gpu_address d R size)._buffer_gpu_addresses := by
  unfold non_overlapping register_buffer_gpu_address
  simp only
  rw [List.pairwise_append]
  refine ⟨hno, List.pairwise_singleton _ _, ?_⟩
  intro a ha b hb
  rw [List.mem_singleton] at hb
  subst hb
  exact hnew a ha

/-- C9 amended, at a table holding `[0x8000, 0x9000)`: registering a buffer at
`0x9000` of size 256 keeps the table non-overlapping. -/
theorem register_buffer_gpu_address_non_overlapping_witness :
    non_overlapping
      (register_buffer_gpu_address ⟨[], [(0x51A0, ⟨0x8000, 4096⟩)], [], []⟩
        ⟨0x51B0, 0x9000⟩ 256)._buffer_gpu_addresses :=
  register_buffer_gpu_address_non_overlapping ⟨[], [(0x51A0, ⟨0x8000, 4096⟩)], [], []⟩
    ⟨0x51B0, 0x9000⟩ 256 (by decide) (by decide)

/-- C10. Let two buffer tables be permutations of each other, both with pairwise
non-overlapping ranges, and take any 64-bit address. The linear first-match scan over
the first table returns what the order-independent only-match lookup returns on the
second: for a non-zero address, `(R, address - base)` of the entry of the second table
that holds the address, and not-found when none does. In particular the scan returns
the same `(success, resource, offset)` on both tables. -/
theorem resolve_gpu_address_perm (d₁ d₂ : device_impl)
    (hperm : d₁._buffer_gpu_addresses.Perm d₂._buffer_gpu_addresses)
    (hno₁ : non_overlapping d₁._buffer_gpu_addresses)
    (hno₂ : non_overlapping d₂._buffer_gpu_addresses)
    (address : Nat) (ha : address < UINT64_MOD) :
    resolve_gpu_address d₁ address =
      resolve_gpu_address_only_match d₂._buffer_gpu_addresses address ∧
    (address ≠ 0 → ∀ info ∈ d₂._buffer_gpu_addresses, covers info address →
      resolve_gpu_address d₁ address =
        ⟨true, info.1, address - info.2.StartAddress⟩) ∧
    (address ≠ 0 → (∀ info ∈ d₂._buffer_gpu_addresses, ¬ covers info address) →
      resolve_gpu_address d₁ address = ⟨false, 0, 0⟩) ∧
    resolve_gpu_address d₁ address = resolve_gpu_address d₂ address := by
  have hfound : address ≠ 0 → ∀ info ∈ d₂._buffer_gpu_addresses, covers info address →
      resolve_gpu_address d₁ address =
        ⟨true, info.1, address - info.2.StartAddress⟩ := by
    intro h0 info hmem hcov
    rw [resolve_gpu_address_of_ne_zero d₁ h0]
    exact resolve_gpu_address_loop_unique address ha _ hno₁ info
      (hperm.mem_iff.mpr hmem) hcov
  have hnone : address ≠ 0 → (∀ info ∈ d₂._buffer_gpu_addresses, ¬ covers info address) →
      resolve_gpu_address d₁ address = ⟨false, 0, 0⟩ := by
    intro h0 hn
    rw [resolve_gpu_address_of_ne_zero d₁ h0]
    exact resolve_gpu_address_loop_none address ha _
      (fun x hx => hn x (hperm.mem_iff.mp hx))
  refine ⟨?_, hfound, hnone, ?_⟩
  · by_cases h0 : address = 0
    · simp [resolve_gpu_address, resolve_gpu_address_only_match, h0]
    · by_cases hex : ∃ info ∈ d₂._buffer_gpu_addresses, covers info address
      · obtain ⟨info, hmem, hcov⟩ := hex
        rw [hfound h0 info hmem hcov,
          resolve_gpu_address_only_match_of_mem address h0 _ hno₂ info hmem hcov]
      · have hn : ∀ x ∈ d₂._buffer_gpu_addresses, ¬ covers x address :=
          fun x hx hc => hex ⟨x, hx, hc⟩
        rw [hnone h0 hn, resolve_gpu_address_only_match_none address h0 _ hn]
  · by_cases h0 : address = 0
    · simp [resolve_gpu_address, h0]
    · by_cases hex : ∃ info ∈ d₂._buffer_gpu_addresses, covers info address
      · obtain ⟨info, hmem, hcov⟩ := hex
        rw [hfound h0 info hmem hcov, resolve_gpu_address_of_ne_zero d₂ h0,
          resolve_gpu_address_loop_unique address ha _ hno₂ info hmem hcov]
      · have hn : ∀ x ∈ d₂._buffer_gpu_addresses, ¬ covers x address :=
          fun x hx hc => hex ⟨x, hx, hc⟩
        rw [hnone h0 hn, resolve_gpu_address_of_ne_zero d₂ h0,
          resolve_gpu_address_loop_none address ha _ hn]

/-- C10, at a table of three ranges and its ordering by start address: the scan over
the unordered table resolves `0x8400` to the resource `0x51A0` at offset `0x400`, which
is the only-match answer on the ordered table and the scan's answer there, and it does
not find `0x9100`, which no range holds. -/
theorem resolve_gpu_address_perm_witness :
    (resolve_gpu_address
        ⟨[], [(0x51C0, ⟨0xA000, 64⟩), (0x51A0, ⟨0x8000, 4096⟩), (0x51B0, ⟨0x9000, 256⟩)],
          [], []⟩ 0x8400 = ⟨true, 0x51A0, 0x400⟩ ∧
      resolve_gpu_address_only_match
        [(0x51A0, ⟨0x8000, 4096⟩), (0x51B0, ⟨0x9000, 256⟩), (0x51C0, ⟨0xA000, 64⟩)]
        0x8400 = ⟨true, 0x51A0, 0x400⟩ ∧
      resolve_gpu_address
        ⟨[], [(0x51A0, ⟨0x8000, 4096⟩), (0x51B0, ⟨0x9000, 256⟩), (0x51C0, ⟨0xA000, 64⟩)],
          [], []⟩ 0x8400 = ⟨true, 0x51A0, 0x400⟩) ∧
    resolve_gpu_address
        ⟨[], [(0x51C0, ⟨0xA000, 64⟩), (0x51A0, ⟨0x8000, 4096⟩), (0x51B0, ⟨0x9000, 256⟩)],
          [], []⟩ 0x9100 = ⟨false, 0, 0⟩ :=
  have h := resolve_gpu_address_perm
    ⟨[], [(0x51C0, ⟨0xA000, 64⟩), (0x51A0, ⟨0x8000, 4096⟩), (0x51B0, ⟨0x9000, 256⟩)],
      [], []⟩
    ⟨[], [(0x51A0, ⟨0x8000, 4096⟩), (0x51B0, ⟨0x9000, 256⟩), (0x51C0, ⟨0xA000, 64⟩)],
      [], []⟩
    (by decide) (by decide) (by decide) 0x8400 (by decide)
  have h' := resolve_gpu_address_perm
    ⟨[], [(0x51C0, ⟨0xA000, 64⟩), (0x51A0, ⟨0x8000, 4096⟩), (0x51B0, ⟨0x9000, 256⟩)],
      [], []⟩
    ⟨[], [(0x51A0, ⟨0x8000, 4096⟩), (0x51B0, ⟨0x9000, 256⟩), (0x51C0, ⟨0xA000, 64⟩)],
      [], []⟩
    (by decide) (by decide) (by decide) 0x9100 (by decide)
  ⟨⟨h.2.1 (by decide) (0x51A0, ⟨0x8000, 4096⟩) (by simp) (by decide),
      h.1.symm.trans (h.2.1 (by decide) (0x51A0, ⟨0x8000, 4096⟩) (by simp) (by decide)),
      h.2.2.2.symm.trans
        (h.2.1 (by decide) (0x51A0, ⟨0x8000, 4096⟩) (by simp) (by decide))⟩,
    h'.2.2.1 (by decide) (by decide)⟩

/-- C11. `begin_commands` is idempotent: a second call leaves the state of the first
and returns the same command buffer. After the call the pending-work flag is set; the
ring cursor `_cmd_index` and every fence value are those from before the call. -/
theorem begin_commands_idempotent (l : command_list_immediate_impl) :
    begin_commands (begin_commands l).1 = begin_commands l ∧
    (begin_commands l).2 = l._orig ∧
    (begin_commands l).1._has_commands = true ∧
    (begin_commands l).1._cmd_index = l._cmd_index ∧
    (begin_commands l).1._fence_value = l._fence_value := by
  simp [begin_commands]

/-- C12 fails on the code. The loop of `unregister_descriptor_heap` increments the
iterator in its body and again in its header. When the table has odd length and no
entry of the heap stands at an even position, the first increment of the last round
reaches `end()` and the second one advances past it. -/
theorem unregister_descriptor_heap_past_end (d : device_impl)
    (H : ID3D12DescriptorHeap) (hodd : d._descriptor_heaps.length % 2 = 1)
    (heven : ∀ info ∈ even_entries d._descriptor_heaps, info.1.ptr ≠ H.ptr) :
    unregister_descriptor_heap d H = .error Fault.iterator_past_end := by
  simp [unregister_descriptor_heap,
    unregister_descriptor_heap_loop_past_end H d._descriptor_heaps hodd heven]

/-- C12, the failing run: the heaps `0x100`, `0x200`, `0x300` are registered in this
order; unregistering `0x200`, which stands at position 1, runs the iterator past the
end of the table. -/
theorem unregister_descriptor_heap_past_end_witness :
    unregister_descriptor_heap
        (register_descriptor_heap (fun _ => 32)
          (register_descriptor_heap (fun _ => 32)
            (register_descriptor_heap (fun _ => 32) device_impl.empty
              ⟨0x100, .CBV_SRV_UAV, 8, true, 1, 0x10000⟩)
            ⟨0x200, .CBV_SRV_UAV, 8, true, 2, 0x20000⟩)
          ⟨0x300, .CBV_SRV_UAV, 8, true, 3, 0x30000⟩)
        ⟨0x200, .CBV_SRV_UAV, 8, true, 2, 0x20000⟩ =
      .error Fault.iterator_past_end :=
  unregister_descriptor_heap_past_end _ _ (by decide) (by decide)

/-- C13, as stated, fails on the code in three ways. Two CPU-only heaps sharing the GPU
start handle 0: the map keeps the element of the first, so the second has a range
entry and no element of its own. A heap registered twice and unregistered once: one
range entry stays, the map element is gone. A heap registered second and then
unregistered: by the double increment of the erase loop its range entry stays, while
its map element is erased. -/
theorem registry_consistency_counterexample :
    (∃ d, run_heap_calls (fun _ => 32) device_impl.empty
        [.register ⟨0x100, .RTV, 8, false, 1, 0⟩,
          .register ⟨0x200, .RTV, 16, false, 2, 0⟩] = .ok d ∧
      heap_has_entry d ⟨0x200, .RTV, 16, false, 2, 0⟩ ∧
      ¬ set_map_has_heap d ⟨0x200, .RTV, 16, false, 2, 0⟩) ∧
    (∃ d, run_heap_calls (fun _ => 32) device_impl.empty
        [.register ⟨0x100, .CBV_SRV_UAV, 8, true, 1, 0x10000⟩,
          .register ⟨0x100, .CBV_SRV_UAV, 8, true, 1, 0x10000⟩,
          .unregister ⟨0x100, .CBV_SRV_UAV, 8, true, 1, 0x10000⟩] = .ok d ∧
      heap_has_entry d ⟨0x100, .CBV_SRV_UAV, 8, true, 1, 0x10000⟩ ∧
      ¬ set_map_has_heap d ⟨0x100, .CBV_SRV_UAV, 8, true, 1, 0x10000⟩) ∧
    (∃ d, run_heap_calls (fun _ => 32) device_impl.empty
        [.register ⟨0x100, .CBV_SRV_UAV, 8, true, 1, 0x10000⟩,
          .register ⟨0x200, .CBV_SRV_UAV, 8, true, 2, 0x20000⟩,
          .unregister ⟨0x200, .CBV_SRV_UAV, 8, true, 2, 0x20000⟩] = .ok d ∧
      heap_has_entry d ⟨0x200, .CBV_SRV_UAV, 8, true, 2, 0x20000⟩ ∧
      ¬ set_map_has_heap d ⟨0x200, .CBV_SRV_UAV, 8, true, 2, 0x20000⟩) := by
  refine ⟨⟨_, rfl, by decide, by decide⟩, ⟨_, rfl, by decide, by decide⟩,
    ⟨_, rfl, by decide, by decide⟩⟩

/-- C13, amended. Take a sequence of `register_descriptor_heap` and
`unregister_descriptor_heap` calls, run from empty tables, in which heaps that agree in
the pointer or in the GPU start handle are the same heap, each heap is registered only
while it is not registered, and each heap is unregistered only while it is registered
and its entry stands at an even position of the range table. Then every call returns,
and afterwards each heap of the sequence has an entry in `_descriptor_heaps` if and
only if `_descriptor_set_map` has an element keyed by its GPU start handle whose
value is its own CPU start handle and capacity. -/
theorem registry_consistent_after_calls
    (_descriptor_handle_size : D3D12_DESCRIPTOR_HEAP_TYPE → Nat)
    (calls : List heap_call) (hdist : distinct_handles calls)
    (hadm : calls_admissible [] calls) :
    ∃ d, run_heap_calls _descriptor_handle_size device_impl.empty calls = .ok d ∧
      ∀ c ∈ calls, (heap_has_entry d c.heap ↔ set_map_has_heap d c.heap) := by
  have hinj : ∀ a ∈ calls.map heap_call.heap, ∀ b ∈ calls.map heap_call.heap,
      (a.GetGPUDescriptorHandleForHeapStart = b.GetGPUDescriptorHandleForHeapStart ∨
        a.ptr = b.ptr) → a = b := by
    intro a ha b hb hab
    obtain ⟨c₁, hc₁, rfl⟩ := List.mem_map.mp ha
    obtain ⟨c₂, hc₂, rfl⟩ := List.mem_map.mp hb
    exact hdist c₁ hc₁ c₂ hc₂ hab
  have hstart : registry_tracks device_impl.empty [] := by
    refine ⟨rfl, List.nodup_nil, ?_, ?_⟩
    · intro K hK
      simp at hK
    · intro k v hf
      simp [device_impl.empty, unordered_map_find] at hf
  obtain ⟨d, live, hrun, ⟨hmap, _, hhas, hkeys⟩, hlive⟩ :=
    run_heap_calls_tracks _descriptor_handle_size (calls.map heap_call.heap) hinj calls
      device_impl.empty [] (fun c hc => List.mem_map_of_mem _ hc) (by simp) hstart hadm
  refine ⟨d, hrun, ?_⟩
  intro c hc
  have hcU : c.heap ∈ calls.map heap_call.heap := List.mem_map_of_mem _ hc
  constructor
  · rintro ⟨info, hinfo, hptr⟩
    have hil : info.1 ∈ live := hmap ▸ List.mem_map_of_mem Prod.fst hinfo
    have heq : info.1 = c.heap := hinj _ (hlive _ hil) _ hcU (Or.inr hptr)
    exact hhas c.heap (heq ▸ hil)
  · intro hset
    obtain ⟨K, hK, hgpu⟩ := hkeys _ _ hset
    have heq : K = c.heap := hinj _ (hlive _ hK) _ hcU (Or.inl hgpu)
    rw [← hmap] at hK
    obtain ⟨info, hinfo, hfst⟩ := List.mem_map.mp hK
    exact ⟨info, hinfo, by rw [hfst, heq]⟩

/-- C13 amended, at three shader-visible heaps registered in the order `0x100`,
`0x200`, `0x300`, of which `0x100` and then `0x200` are unregistered (each at
position 0): the run returns with the tables consistent for all three heaps. -/
theorem registry_consistent_after_calls_witness :
    ∃ d, run_heap_calls (fun _ => 32) device_impl.empty
        [.register ⟨0x100, .CBV_SRV_UAV, 8, true, 1, 0x10000⟩,
          .register ⟨0x200, .CBV_SRV_UAV, 8, true, 2, 0x20000⟩,
          .register ⟨0x300, .CBV_SRV_UAV, 8, true, 3, 0x30000⟩,
          .unregister ⟨0x100, .CBV_SRV_UAV, 8, true, 1, 0x10000⟩,
          .unregister ⟨0x200, .CBV_SRV_UAV, 8, true, 2, 0x20000⟩] = .ok d ∧
      ∀ c ∈ ([.register ⟨0x100, .CBV_SRV_UAV, 8, true, 1, 0x10000⟩,
          .register ⟨0x200, .CBV_SRV_UAV, 8, true, 2, 0x20000⟩,
          .register ⟨0x300, .CBV_SRV_UAV, 8, true, 3, 0x30000⟩,
          .unregister ⟨0x100, .CBV_SRV_UAV, 8, true, 1, 0x10000⟩,
          .unregister ⟨0x200, .CBV_SRV_UAV, 8, true, 2, 0x20000⟩] : List heap_call),
        (heap_has_entry d c.heap ↔ set_map_has_heap d c.heap) :=
  registry_consistent_after_calls (fun _ => 32) _ (by decide)
    ⟨by decide, by decide, by decide, ⟨⟨[], _, rfl, rfl⟩, ⟨[], _, rfl, rfl⟩, trivial⟩⟩

/-- C14. Whenever `resolve_descriptor_handle(h, T)` succeeds, it does so against an
entry of type T with start address `b` for which the stride `s` is positive, the
64-bit subtraction `h - b` does not underflow (`b ≤ h`, and the wrapped difference is
the exact one) and `h - b` is an exact multiple of `s`; the returned set is that
heap's, the returned offset is `(h - b) / s` reduced to 32 bits, and
`b + out_offset * s = h` provided `(h - b) / s < 2^32`. -/
theorem resolve_descriptor_handle_offset_exact (NDEBUG : Bool)
    (_descriptor_handle_size : D3D12_DESCRIPTOR_HEAP_TYPE → Nat) (d : device_impl)
    (h : Nat) (T : D3D12_DESCRIPTOR_HEAP_TYPE) (r : descriptor_handle_result)
    (h64 : h < UINT64_MOD)
    (hok : resolve_descriptor_handle NDEBUG _descriptor_handle_size d h T = .ok r)
    (hfound : r.found = true) :
    ∃ info ∈ d._descriptor_heaps, info.1.desc_Type = T ∧
      0 < _descriptor_handle_size T ∧
      info.2.StartAddress ≤ h ∧
      sub64 h info.2.StartAddress = h - info.2.StartAddress ∧
      _descriptor_handle_size T ∣ h - info.2.StartAddress ∧
      r.out_set = info.1.GetGPUDescriptorHandleForHeapStart ∧
      r.out_offset =
        ((h - info.2.StartAddress) / _descriptor_handle_size T) % UINT32_MOD ∧
      ((h - info.2.StartAddress) / _descriptor_handle_size T < UINT32_MOD →
        info.2.StartAddress + r.out_offset * _descriptor_handle_size T = h) := by
  obtain ⟨info, hmem, ht, hz, hm, hr⟩ :=
    resolve_descriptor_handle_loop_found NDEBUG _descriptor_handle_size h T r
      d._descriptor_heaps hok hfound
  have hle : info.2.StartAddress ≤ h := by
    rw [← hm]
    exact Nat.mod_le h _
  have hsub : sub64 h info.2.StartAddress = h - info.2.StartAddress :=
    sub64_of_le hle h64
  have hdm : _descriptor_handle_size T * (h / _descriptor_handle_size T) +
      h % _descriptor_handle_size T = h := Nat.div_add_mod h _
  have hdiff : h - info.2.StartAddress =
      _descriptor_handle_size T * (h / _descriptor_handle_size T) := by
    rw [← hm]
    omega
  have hpos : 0 < _descriptor_handle_size T := Nat.pos_of_ne_zero hz
  have hquot : (h - info.2.StartAddress) / _descriptor_handle_size T =
      h / _descriptor_handle_size T := by
    rw [hdiff, Nat.mul_div_cancel_left _ hpos]
  have hoff : r.out_offset =
      ((h - info.2.StartAddress) / _descriptor_handle_size T) % UINT32_MOD := by
    rw [hr, hsub]
  refine ⟨info, hmem, ht, hpos, hle, hsub, ⟨_, hdiff⟩, by rw [hr], hoff, ?_⟩
  intro hlt
  rw [hoff, Nat.mod_eq_of_lt hlt, hquot, Nat.mul_comm]
  omega

/-- C14, at a heap with CPU base 5, capacity 128 and stride 32: the handle
`5 + 5*32` resolves, and the entry it resolved against has start address 5 with
`165 - 5` a multiple of 32 and `5 + out_offset * 32 = 165`. -/
theorem resolve_descriptor_handle_offset_exact_witness :
    ∃ info ∈ (register_descriptor_heap (fun _ => 32) device_impl.empty
        ⟨0x200, .RTV, 128, false, 5, 0⟩)._descriptor_heaps,
      info.1.desc_Type = .RTV ∧ 0 < 32 ∧ info.2.StartAddress ≤ 165 ∧
      sub64 165 info.2.StartAddress = 165 - info.2.StartAddress ∧
      32 ∣ 165 - info.2.StartAddress ∧
      (⟨true, 0, 5, some false⟩ : descriptor_handle_result).out_set =
        info.1.GetGPUDescriptorHandleForHeapStart ∧
      (⟨true, 0, 5, some false⟩ : descriptor_handle_result).out_offset =
        ((165 - info.2.StartAddress) / 32) % UINT32_MOD ∧
      ((165 - info.2.StartAddress) / 32 < UINT32_MOD →
        info.2.StartAddress +
          (⟨true, 0, 5, some false⟩ : descriptor_handle_result).out_offset * 32 = 165) :=
  resolve_descriptor_handle_offset_exact false (fun _ => 32)
    (register_descriptor_heap (fun _ => 32) device_impl.empty
      ⟨0x200, .RTV, 128, false, 5, 0⟩)
    165 .RTV ⟨true, 0, 5, some false⟩ (by decide) (by rfl) (by rfl)

/-- C15 holds on the code only where the call returns. For every state and heap,
`unregister_descriptor_heap(H)` either runs its iterator past the end of the range
table, which happens exactly when the table has odd length and no entry of H at an
even position, or it returns with the buffer table and the view map unchanged and
the range table either unchanged or with exactly one entry removed, an entry owned by
H, all other entries keeping their order. -/
theorem unregister_descriptor_heap_frame (d : device_impl) (H : ID3D12DescriptorHeap) :
    (unregister_descriptor_heap d H = .error Fault.iterator_past_end ∧
      d._descriptor_heaps.length % 2 = 1 ∧
      ∀ info ∈ even_entries d._descriptor_heaps, info.1.ptr ≠ H.ptr) ∨
    (∃ d', unregister_descriptor_heap d H = .ok d' ∧
      d'._views = d._views ∧ d'._buffer_gpu_addresses = d._buffer_gpu_addresses ∧
      (d'._descriptor_heaps = d._descriptor_heaps ∨
        ∃ pre info post, d._descriptor_heaps = pre ++ info :: post ∧
          info.1.ptr = H.ptr ∧ d'._descriptor_heaps = pre ++ post)) := by
  rcases unregister_descriptor_heap_loop_cases H d._descriptor_heaps with
    ⟨he, hlen, hne⟩ | ⟨hk, _, _⟩ | ⟨pre, info, post, hsplit, hinfo, hk⟩
  · left
    exact ⟨by simp [unregister_descriptor_heap, he], hlen, hne⟩
  · right
    exact ⟨⟨d._views, d._buffer_gpu_addresses, d._descriptor_heaps,
        unordered_map_erase d._descriptor_set_map H.GetGPUDescriptorHandleForHeapStart⟩,
      by simp only [unregister_descriptor_heap, hk], rfl, rfl, Or.inl rfl⟩
  · right
    exact ⟨⟨d._views, d._buffer_gpu_addresses, pre ++ post,
        unordered_map_erase d._descriptor_set_map H.GetGPUDescriptorHandleForHeapStart⟩,
      by simp only [unregister_descriptor_heap, hk], rfl, rfl,
      Or.inr ⟨pre, info, post, hsplit, hinfo, rfl⟩⟩

/-- C16 fails on the code. The size recorded by `register_descriptor_heap` is the
product of two `UINT` values, computed in 32 bits and widened afterwards: when the
exact product `n * s` does not fit 32 bits, the recorded size is `n * s mod 2^32`, not
`n * s`. -/
theorem register_descriptor_heap_size_wraps
    (_descriptor_handle_size : D3D12_DESCRIPTOR_HEAP_TYPE → Nat) (d : device_impl)
    (H : ID3D12DescriptorHeap)
    (hbig : UINT32_MOD ≤ H.desc_NumDescriptors * _descriptor_handle_size H.desc_Type) :
    (register_descriptor_heap _descriptor_handle_size d H)._descriptor_heaps =
      d._descriptor_heaps ++ [(H, ⟨H.GetCPUDescriptorHandleForHeapStart,
        (H.desc_NumDescriptors * _descriptor_handle_size H.desc_Type) % UINT32_MOD⟩)] ∧
    (H.desc_NumDescriptors * _descriptor_handle_size H.desc_Type) % UINT32_MOD ≠
      H.desc_NumDescriptors * _descriptor_handle_size H.desc_Type := by
  refine ⟨rfl, ?_⟩
  have hlt : (H.desc_NumDescriptors * _descriptor_handle_size H.desc_Type) % UINT32_MOD <
      UINT32_MOD := Nat.mod_lt _ (by unfold UINT32_MOD; norm_num)
  omega

/-- C16, the failing input: capacity `2^27` and stride 32 are 32-bit values with exact
product `2^32`; the size recorded for the heap is 0. -/
theorem register_descriptor_heap_size_wraps_witness :
    (2 ^ 27 < UINT32_MOD ∧ 32 < UINT32_MOD) ∧
    (register_descriptor_heap (fun _ => 32) device_impl.empty
        ⟨0x200, .CBV_SRV_UAV, 2 ^ 27, true, 5, 0x20000⟩)._descriptor_heaps =
      [(⟨0x200, .CBV_SRV_UAV, 2 ^ 27, true, 5, 0x20000⟩, ⟨5, 0⟩)] ∧
    (2 ^ 27 * 32) % UINT32_MOD = 0 ∧
    (2 ^ 27 * 32) % UINT32_MOD ≠ 2 ^ 27 * 32 :=
  ⟨by decide,
    (register_descriptor_heap_size_wraps (fun _ => 32) device_impl.empty
      ⟨0x200, .CBV_SRV_UAV, 2 ^ 27, true, 5, 0x20000⟩ (by decide)).1,
    by decide,
    (register_descriptor_heap_size_wraps (fun _ => 32) device_impl.empty
      ⟨0x200, .CBV_SRV_UAV, 2 ^ 27, true, 5, 0x20000⟩ (by decide)).2⟩

end reshade.d3d12
